import Mathlib

set_option maxRecDepth 40000

/-!
Shallow embedding of `src/school_operational_status_generator.py`.

The program reads a CSV roster of schools with columns
ST, LEAID, LEA_NAME, NCESSCH, SCH_NAME, groups the rows by State and then
by LEA (pandas `groupby`, which iterates groups in ascending key order and
keeps the original row order inside each group), and writes one JSON
template file per State, built from literal string templates.
-/

/-- One row of the input roster, i.e. one record of the CSV restricted to
the five columns selected by `usecols` in the source. -/
structure Row where
  st : String
  leaid : String
  lea_name : String
  ncessch : String
  sch_name : String
deriving Repr, DecidableEq

/-- A school object as emitted into an `openStatus` array. -/
structure SchoolOut where
  weeklyInPersonInstruction : String
  schoolID : String
  schoolName : String
deriving Repr, DecidableEq

/-- An LEA object as emitted into the `lea` array of a State file. -/
structure LeaOut where
  leaID : String
  leaName : String
  openStatus : List SchoolOut
deriving Repr, DecidableEq

/-- The content generated for one State: the State code (which names the
output directory) and the list of LEA objects of its `lea` array. -/
structure StateOut where
  state : String
  leas : List LeaOut
deriving Repr, DecidableEq

/-- Strict lexicographic order on code points, the order Python uses to
compare strings. -/
def listCharLt : List Char → List Char → Bool
  | _, [] => false
  | [], _ :: _ => true
  | a :: as, b :: bs =>
      if a < b then true else if b < a then false else listCharLt as bs

/-- Reflexive lexicographic order on strings. -/
def strLe (a b : String) : Bool :=
  a == b || listCharLt a.data b.data

/-- Distinct keys of a grouping, in ascending order: pandas `groupby`
iterates one group per distinct key, keys sorted ascending. -/
def sortedUnique (l : List String) : List String :=
  (l.dedup).insertionSort (fun a b => strLe a b)

/-- Group of a key: the rows of the frame carrying that key, in their
original order, as pandas `groupby` presents each group. -/
def groupOfLea (rows : List Row) (lid : String) : List Row :=
  rows.filter (fun r => r.leaid == lid)

/-- Rows of one State group. -/
def groupOfState (rows : List Row) (st : String) : List Row :=
  rows.filter (fun r => r.st == st)

/-- Builds one LEA object from its group of rows.  The LEA name is taken
from the first row of the group (`sch_grp.iloc[0]['LEA_NAME']`); each row
yields one school object whose status is the literal placeholder written
by `SCHOOL_FORMAT`.  An empty group makes the source raise `IndexError`
at `iloc[0]`, modelled by `none`. -/
def genLea (lid : String) (g : List Row) : Option LeaOut :=
  match g with
  | [] => none
  | r :: _ =>
      some { leaID := lid, leaName := r.lea_name,
             openStatus := g.map (fun s =>
               { weeklyInPersonInstruction := "Not reported",
                 schoolID := s.ncessch, schoolName := s.sch_name }) }

/-- Builds the LEA objects of one State for the given list of LEA ids. -/
def genLeas (lids : List String) (rows_st : List Row) : Option (List LeaOut) :=
  match lids with
  | [] => some []
  | lid :: rest =>
      match genLea lid (groupOfLea rows_st lid), genLeas rest rows_st with
      | some l, some ls => some (l :: ls)
      | _, _ => none

/-- Builds the `lea` array content of one State group.  The source pulls
the first LEA with an unguarded `next(lea_iter)`, which raises
`StopIteration` when the State group has no LEA groups; that is modelled
by `none` on an empty key list. -/
def genState (rows_st : List Row) : Option (List LeaOut) :=
  match sortedUnique (rows_st.map (fun r => r.leaid)) with
  | [] => none
  | lid :: rest => genLeas (lid :: rest) rows_st

/-- Builds the per-State outputs for the given list of State codes. -/
def genStates (sts : List String) (rows : List Row) : Option (List StateOut) :=
  match sts with
  | [] => some []
  | st :: rest =>
      match genState (groupOfState rows st), genStates rest rows with
      | some leas, some outs => some ({ state := st, leas := leas } :: outs)
      | _, _ => none

/-- The grouping phase of `main`: one `StateOut` per distinct State code,
in ascending order, or `none` where the source would raise. -/
def generate (rows : List Row) : Option (List StateOut) :=
  genStates (sortedUnique (rows.map (fun r => r.st))) rows

/-! ## The literal output templates of the source. -/

/-- Hard-coded default input file name (`CCD_FILE`). -/
def CCD_FILE : String := "ccd_sch_sas.csv"

/-- Default `conformsTo` URL (`CONFORMANCE_URL`). -/
def CONFORMANCE_URL : String :=
  "https://data.ed.gov/v1.0/schema/schooloperationalstatus"

/-- Default `describedBy` URL (`SCHEMA_URL`). -/
def SCHEMA_URL : String :=
  "https://data.ed.gov/v1.0/schema/schooloperationalstatus.schema.json"

/-- Part of `PREFIX_FORMAT` before the first `%s` hole. -/
def PRE1 : String := "\x7b\n\"conformsTo\": \""

/-- Part of `PREFIX_FORMAT` between the two `%s` holes. -/
def PRE2 : String := "\",\n\"describedBy\": \""

/-- Part of `PREFIX_FORMAT` after the second `%s` hole: the reporting
period start date, the four comment lines and the opening of the `lea`
array. -/
def PRE3 : String :=
  "\",\n\"reportingPeriodStartDate\": \"2021-05-10\",\n\"comment\": \"For each school, record All if all enrolled students were offered in-person instruction the full week\",\n\"comment\": \"record None if no enrolled student was offered in-person instruction any day of the reporting week,\",\n\"comment\": \"record Hybrid if the school was in session but the other two responses are not accurate,\",\n\"comment\": \"and record Not in session if the school was not in session for the reporting week.\",\n\"lea\": [\n"

/-- The `PREFIX_FORMAT` template with its two `%s` holes filled. -/
def PREFIX_FORMAT (conforms_to described_by : String) : String :=
  PRE1 ++ (conforms_to ++ (PRE2 ++ (described_by ++ PRE3)))

/-- The `LEA_PREFIX_FORMAT` template with its two `%s` holes filled. -/
def LEA_PREFIX_FORMAT (lea lea_name : String) : String :=
  "\x7b\"leaID\": \"" ++ (lea ++ ("\", \"leaName\": \"" ++ (lea_name ++ "\", \"openStatus\": [\n")))

/-- The `LEA_SUFFIX` template closing one LEA object. -/
def LEA_SUFFIX : String := "\n]\x7d"

/-- The `SEPARATOR` written between sibling array elements. -/
def SEPARATOR : String := ",\n"

/-- The `SUFFIX` template closing the `lea` array and the whole object. -/
def SUFFIX : String := "\n]\n\x7d\n"

/-- Name of the file written inside every State directory. -/
def OUTPUT_FILENAME : String := "school_operational_status.json"

/-- The text printed for one school by `SCHOOL_FORMAT`, with the school
object's fields in its holes (the status hole is always filled with the
template's literal "Not reported" by `genLea`). -/
def renderSchool (s : SchoolOut) : String :=
  "  \x7b \"weeklyInPersonInstruction\": \"" ++ (s.weeklyInPersonInstruction ++ ("\", \"schoolID\": \"" ++ (s.schoolID ++ ("\", \"schoolName\": \"" ++ (s.schoolName ++ "\" \x7d")))))

/-- The body of an `openStatus` array: the first school is printed alone,
then each further school is preceded by one `SEPARATOR`, exactly as the
`while schi < len(sch_grp.index)` loop in the source does. -/
def renderSchools : List SchoolOut → String
  | [] => ""
  | [x] => renderSchool x
  | x :: y :: xs => renderSchool x ++ (SEPARATOR ++ renderSchools (y :: xs))

/-- The text printed for one LEA: `LEA_PREFIX_FORMAT`, the schools, then
`LEA_SUFFIX`. -/
def renderLea (l : LeaOut) : String :=
  LEA_PREFIX_FORMAT l.leaID l.leaName ++ (renderSchools l.openStatus ++ LEA_SUFFIX)

/-- The body of the `lea` array: the first LEA block is printed alone,
then each further block is preceded by one `SEPARATOR`, exactly as the
`while True` / `StopIteration` loop in the source does. -/
def renderLeas : List LeaOut → String
  | [] => ""
  | [x] => renderLea x
  | x :: y :: xs => renderLea x ++ (SEPARATOR ++ renderLeas (y :: xs))

/-- The full text of one State's output file.  `print(..., file=j)` with
no `end=` argument appends a newline after `PREFIX_FORMAT` and after
`SUFFIX`; every other `print` uses `end=''`. -/
def renderFile (conforms_to described_by : String) (o : StateOut) : String :=
  PREFIX_FORMAT conforms_to described_by ++ ("\n" ++ (renderLeas o.leas ++ (SUFFIX ++ "\n")))

/-- The observable output of one run: for each distinct State in ascending
order, the directory name, the file name inside it, and the file text. -/
def run (conforms_to described_by : String) (rows : List Row) :
    Option (List (String × String × String)) :=
  (generate rows).map
    (fun outs => outs.map (fun o => (o.state, OUTPUT_FILENAME, renderFile conforms_to described_by o)))

/-- Everything of a State's file text that comes after the `describedBy`
value: this part depends only on the grouped roster data, not on the two
URL flags. -/
def fileTail (o : StateOut) : String :=
  PRE3 ++ ("\n" ++ (renderLeas o.leas ++ (SUFFIX ++ "\n")))

/-- Number of positions of `s` at which `pat` occurs as a substring. -/
def countSub (pat : List Char) : List Char → Nat
  | [] => 0
  | c :: rest => (if pat.isPrefixOf (c :: rest) then 1 else 0) + countSub pat rest

/-! ## A JSON syntax validator.

The emitter writes JSON by string concatenation with no escaping, so
whether its output is well formed depends on the characters of the
interpolated fields.  The validator below accepts a sound fragment of
JSON (RFC 8259 without escape sequences and without numbers, neither of
which the generator ever emits; duplicate object keys are allowed, as the
RFC allows them): values are objects, arrays, strings of unescaped
non-control characters, or the three keyword literals.  `skipValue`
consumes one value and returns the remaining characters; recursion is
bounded by explicit fuel. -/

/-- Insignificant JSON whitespace. -/
def wsChar (c : Char) : Bool :=
  c == ' ' || c == '\n' || c == '\t' || c == '\r'

/-- Drops leading insignificant whitespace. -/
def skipWs : List Char → List Char
  | [] => []
  | c :: r => if wsChar c then skipWs r else c :: r

/-- A character that may stand unescaped inside a JSON string: anything
except the double quote, the backslash and the control characters. -/
def isSafeChar (c : Char) : Bool :=
  !(c == '"') && !(c == '\\') && decide (32 ≤ c.toNat)

/-- All characters of the string may stand unescaped inside a JSON
string. -/
def safeStr (s : String) : Bool := s.data.all isSafeChar

/-- Consumes the remainder of a JSON string after its opening quote, up
to and including the closing quote. -/
def skipStringBody : List Char → Option (List Char)
  | [] => none
  | c :: r => if c = '"' then some r else if isSafeChar c then skipStringBody r else none

mutual

/-- Consumes one JSON value. -/
def skipValue : Nat → List Char → Option (List Char)
  | 0, _ => none
  | f + 1, s =>
    match s with
    | [] => none
    | c :: r =>
      if c = '"' then skipStringBody r
      else if c = '\x7b' then
        match skipWs r with
        | '\x7d' :: r2 => some r2
        | r2 => skipMembers f r2
      else if c = '[' then
        match skipWs r with
        | ']' :: r2 => some r2
        | r2 => skipElems f r2
      else if ['t', 'r', 'u', 'e'].isPrefixOf (c :: r) then some ((c :: r).drop 4)
      else if ['f', 'a', 'l', 's', 'e'].isPrefixOf (c :: r) then some ((c :: r).drop 5)
      else if ['n', 'u', 'l', 'l'].isPrefixOf (c :: r) then some ((c :: r).drop 4)
      else none

/-- Consumes the members of a JSON object starting at the quote of the
next key, up to and including the closing brace. -/
def skipMembers : Nat → List Char → Option (List Char)
  | 0, _ => none
  | f + 1, s =>
    match s with
    | '"' :: r =>
      match skipStringBody r with
      | none => none
      | some r1 =>
        match skipWs r1 with
        | ':' :: r2 =>
          match skipValue f (skipWs r2) with
          | none => none
          | some r3 =>
            match skipWs r3 with
            | ',' :: r4 => skipMembers f (skipWs r4)
            | '\x7d' :: r4 => some r4
            | _ => none
        | _ => none
    | _ => none

/-- Consumes the elements of a JSON array starting at the first element,
up to and including the closing bracket. -/
def skipElems : Nat → List Char → Option (List Char)
  | 0, _ => none
  | f + 1, s =>
    match skipValue f s with
    | none => none
    | some r =>
      match skipWs r with
      | ',' :: r2 => skipElems f (skipWs r2)
      | ']' :: r2 => some r2
      | _ => none

end

/-- Accepts exactly the texts consisting of a single JSON object (in the
validated fragment) possibly surrounded by whitespace. -/
def jsonAccepts (f : Nat) (s : String) : Bool :=
  match skipWs s.data with
  | '\x7b' :: _ =>
    match skipValue f (skipWs s.data) with
    | some r => (skipWs r).isEmpty
    | none => false
  | _ => false

/-- All five fields of the row are quote-, backslash- and control-free. -/
def safeRow (r : Row) : Bool :=
  safeStr r.st && safeStr r.leaid && safeStr r.lea_name &&
    safeStr r.ncessch && safeStr r.sch_name

/-- All three fields of a school object are safe. -/
def safeSchool (s : SchoolOut) : Bool :=
  safeStr s.weeklyInPersonInstruction && safeStr s.schoolID && safeStr s.schoolName

/-- Fuel sufficient to parse the LEA blocks of a `lea` array. -/
def leaFuelList : List LeaOut → Nat
  | [] => 0
  | l :: rest => 6 * l.openStatus.length + 12 + leaFuelList rest

/-- Number of double-quote characters, the invariant of the validator
used to refute well-formedness. -/
def countQ (l : List Char) : Nat := l.count '"'

/-- A roster whose school name contains a double quote, which the emitter
interpolates into the output verbatim. -/
def BADROWS : List Row :=
  [{ st := "VA", leaid := "001", lea_name := "Acme LEA",
     ncessch := "001001", sch_name := "Bad\"Name" }]

/-- The State output generated from `BADROWS`. -/
def BADOUT : StateOut :=
  { state := "VA",
    leas := [{ leaID := "001", leaName := "Acme LEA",
               openStatus :=
                 [{ weeklyInPersonInstruction := "Not reported",
                    schoolID := "001001", schoolName := "Bad\"Name" }] }] }

/-! ## The command-line interface of the script. -/

/-- Hard-coded default log level (`LOG_LEVEL`). -/
def LOG_LEVEL : String := "INFO"

/-- Hard-coded default output directory (`OUTPUT_DIR`). -/
def OUTPUT_DIR : String := "."

/-- The parameters `main` receives, mirroring the `dest` names of the five
`add_argument` calls. -/
structure Args where
  ccd_file : String
  output_dir : String
  conforms_to : String
  described_by : String
  log_level : String
deriving Repr, DecidableEq

/-- The `defaults` dictionary as built from the hard-coded constants (the
environment-variable overrides replace these entries before parsing when
the corresponding variables are set). -/
def DEFAULT_ARGS : Args :=
  { ccd_file := CCD_FILE, output_dir := OUTPUT_DIR,
    conforms_to := CONFORMANCE_URL, described_by := SCHEMA_URL,
    log_level := LOG_LEVEL }

/-- The `choices` list of the `--loglevel` option. -/
def LOG_CHOICES : List String := ["DEBUG", "INFO", "WARNING", "ERROR", "CRITICAL"]

/-- The argument parser built by the script: five optional `--` flags,
each with a default, and no positional argument at all.  A token that is
not one of the five known flags (in particular any bare positional file
name) makes `argparse` fail with an "unrecognized arguments" error. -/
def parseTokens (a : Args) : List String → Except String Args
  | [] => Except.ok a
  | t :: rest =>
    if t == "--ccdfile" then
      match rest with
      | v :: rs => parseTokens { a with ccd_file := v } rs
      | [] => Except.error ("argument --ccdfile: expected one argument")
    else if t == "--outputdir" then
      match rest with
      | v :: rs => parseTokens { a with output_dir := v } rs
      | [] => Except.error ("argument --outputdir: expected one argument")
    else if t == "--conformance" then
      match rest with
      | v :: rs => parseTokens { a with conforms_to := v } rs
      | [] => Except.error ("argument --conformance: expected one argument")
    else if t == "--schema" then
      match rest with
      | v :: rs => parseTokens { a with described_by := v } rs
      | [] => Except.error ("argument --schema: expected one argument")
    else if t == "--loglevel" then
      match rest with
      | v :: rs =>
          if LOG_CHOICES.contains v then parseTokens { a with log_level := v } rs
          else Except.error ("argument --loglevel: invalid choice")
      | [] => Except.error ("argument --loglevel: expected one argument")
    else Except.error ("unrecognized arguments: " ++ t)

/-! ## A minimal model of the file system under the output root. -/

/-- File-system state under the output directory: which State directories
exist, and the content of each (directory, file name) pair. -/
@[ext]
structure FS where
  dirs : String → Bool
  files : String → String → Option String

/-- Models `opath.mkdir(exist_ok=True)`: creates the directory when
absent, leaves everything else unchanged. -/
def mkdirIfAbsent (fs : FS) (d : String) : FS :=
  { fs with dirs := fun x => x == d || fs.dirs x }

/-- Models `jtf.open(mode='w')` followed by the prints: truncates any
existing file at (directory, name) and replaces it with the new text. -/
def writeFile (fs : FS) (d n c : String) : FS :=
  { fs with files := fun x y => if x = d ∧ y = n then some c else fs.files x y }

/-- Applies the per-State outputs to the file system in order, as the
`for state, lea_grp in sidf.groupby(level='ST')` loop does. -/
def applyOutputs (fs : FS) : List (String × String × String) → FS
  | [] => fs
  | (d, n, c) :: rest => applyOutputs (writeFile (mkdirIfAbsent fs d) d n c) rest

/-- One run of the generator against a file-system state. -/
def runOnFS (c d : String) (rows : List Row) (fs : FS) : Option FS :=
  (run c d rows).map (applyOutputs fs)

/-- Content of the last output entry addressed to (directory, name), if
any: the write that survives after a run. -/
def lastContent? : List (String × String × String) → String → String → Option String
  | [], _, _ => none
  | o :: rest, x, y =>
      match lastContent? rest x y with
      | some c => some c
      | none => if x = o.1 ∧ y = o.2.1 then some o.2.2 else none

/-- The empty file system. -/
def FS0 : FS := { dirs := fun _ => false, files := fun _ _ => none }

/-! ## Concrete example data, used by witnesses and counterexamples. -/

/-- The two-school roster of the worked example in the spec. -/
def ROWS1 : List Row :=
  [{ st := "VA", leaid := "001", lea_name := "Acme LEA",
     ncessch := "001001", sch_name := "Acme Elementary" },
   { st := "VA", leaid := "001", lea_name := "Acme LEA",
     ncessch := "001002", sch_name := "Acme Middle" }]

/-- A roster with a single State, a single LEA and a single school. -/
def ROWS2 : List Row :=
  [{ st := "VA", leaid := "001", lea_name := "Acme LEA",
     ncessch := "001001", sch_name := "Acme Elementary" }]

/-- The first school object generated from `ROWS1`. -/
def SCH1 : SchoolOut :=
  { weeklyInPersonInstruction := "Not reported",
    schoolID := "001001", schoolName := "Acme Elementary" }

/-- The second school object generated from `ROWS1`. -/
def SCH2 : SchoolOut :=
  { weeklyInPersonInstruction := "Not reported",
    schoolID := "001002", schoolName := "Acme Middle" }

/-- The LEA object generated from `ROWS1`. -/
def LEA1 : LeaOut :=
  { leaID := "001", leaName := "Acme LEA", openStatus := [SCH1, SCH2] }

/-- The LEA object generated from `ROWS2`. -/
def LEA2 : LeaOut :=
  { leaID := "001", leaName := "Acme LEA", openStatus := [SCH1] }

/-- The State output generated from `ROWS1`. -/
def OUT1 : StateOut := { state := "VA", leas := [LEA1] }

/-- The State output generated from `ROWS2`. -/
def OUT2 : StateOut := { state := "VA", leas := [LEA2] }

/-- A roster in which the same school row appears twice: duplicate rows
are not validated away by the source, so both rows reach the output. -/
def DUPROWS : List Row :=
  [{ st := "VA", leaid := "001", lea_name := "Acme LEA",
     ncessch := "001001", sch_name := "Acme Elementary" },
   { st := "VA", leaid := "001", lea_name := "Acme LEA",
     ncessch := "001001", sch_name := "Acme Elementary" }]

/-- The LEA object generated from `DUPROWS`: one school object per input
row, hence the same school twice. -/
def DUPLEA : LeaOut :=
  { leaID := "001", leaName := "Acme LEA", openStatus := [SCH1, SCH1] }

/-- The State output generated from `DUPROWS`. -/
def DUPOUT : StateOut := { state := "VA", leas := [DUPLEA] }

/-! ## Helper lemmas about the grouping phase. -/

theorem mem_sortedUnique {a : String} {l : List String} :
    a ∈ sortedUnique l ↔ a ∈ l := by
  unfold sortedUnique
  rw [(List.perm_insertionSort _ _).mem_iff, List.mem_dedup]

theorem nodup_sortedUnique (l : List String) : (sortedUnique l).Nodup :=
  ((List.perm_insertionSort _ _).nodup_iff).mpr (List.nodup_dedup l)

theorem toFinset_sortedUnique (l : List String) :
    (sortedUnique l).toFinset = l.toFinset := by
  ext a
  simp [List.mem_toFinset, mem_sortedUnique]

theorem length_sortedUnique (l : List String) :
    (sortedUnique l).length = l.dedup.length :=
  (List.perm_insertionSort _ _).length_eq

theorem sortedUnique_ne_nil {l : List String} (h : l ≠ []) :
    sortedUnique l ≠ [] := by
  match l, h with
  | a :: l, _ =>
    exact List.ne_nil_of_mem (mem_sortedUnique.mpr (List.mem_cons_self a l))

theorem genLea_inv {lid : String} {g : List Row} {l : LeaOut}
    (h : genLea lid g = some l) :
    g ≠ [] ∧ l.leaID = lid ∧
      l.openStatus = g.map (fun s =>
        { weeklyInPersonInstruction := "Not reported",
          schoolID := s.ncessch, schoolName := s.sch_name }) := by
  match g, h with
  | r :: g', h =>
    simp only [genLea, Option.some.injEq] at h
    refine ⟨by simp, ?_, ?_⟩ <;> rw [← h]

theorem genLeas_some {lids : List String} {rows : List Row}
    (h : ∀ lid ∈ lids, groupOfLea rows lid ≠ []) :
    ∃ ls, genLeas lids rows = some ls := by
  rw [← Option.isSome_iff_exists]
  induction lids with
  | nil => rfl
  | cons lid rest ih =>
    have hig := ih (fun x hx => h x (List.mem_cons_of_mem _ hx))
    obtain ⟨ls, hls⟩ := Option.isSome_iff_exists.mp hig
    have hg : groupOfLea rows lid ≠ [] := h lid (List.mem_cons_self _ _)
    cases hgl : groupOfLea rows lid with
    | nil => exact absurd hgl hg
    | cons r g' => simp [genLeas, hgl, genLea, hls]

theorem genLeas_map_leaID {lids : List String} {rows : List Row}
    {ls : List LeaOut} (h : genLeas lids rows = some ls) :
    ls.map (fun l => l.leaID) = lids := by
  induction lids generalizing ls with
  | nil => simp only [genLeas, Option.some.injEq] at h; simp [← h]
  | cons lid rest ih =>
    simp only [genLeas] at h
    match h1 : genLea lid (groupOfLea rows lid), h2 : genLeas rest rows with
    | some l, some ls' =>
      rw [h1, h2] at h
      simp only [Option.some.injEq] at h
      subst h
      simp [ih h2, (genLea_inv h1).2.1]
    | some _, none => rw [h1, h2] at h; exact absurd h (by simp)
    | none, _ => rw [h1] at h; exact absurd h (by simp)

theorem genLeas_mem {lids : List String} {rows : List Row}
    {ls : List LeaOut} (h : genLeas lids rows = some ls) :
    ∀ l ∈ ls, genLea l.leaID (groupOfLea rows l.leaID) = some l := by
  induction lids generalizing ls with
  | nil =>
    simp only [genLeas, Option.some.injEq] at h
    simp [← h]
  | cons lid rest ih =>
    simp only [genLeas] at h
    match h1 : genLea lid (groupOfLea rows lid), h2 : genLeas rest rows with
    | some l, some ls' =>
      rw [h1, h2] at h
      simp only [Option.some.injEq] at h
      subst h
      intro x hx
      rcases List.mem_cons.mp hx with hx | hx
      · subst hx
        rwa [(genLea_inv h1).2.1]
      · exact ih h2 x hx
    | some _, none => rw [h1, h2] at h; exact absurd h (by simp)
    | none, _ => rw [h1] at h; exact absurd h (by simp)

theorem group_ne_nil_of_mem_keys {rows : List Row} {lid : String}
    (h : lid ∈ rows.map (fun r => r.leaid)) : groupOfLea rows lid ≠ [] := by
  obtain ⟨r, hr, hrl⟩ := List.mem_map.mp h
  exact List.ne_nil_of_mem (List.mem_filter.mpr ⟨hr, by simp [hrl]⟩)

theorem genState_some {rows_st : List Row} (h : rows_st ≠ []) :
    ∃ ls, genState rows_st = some ls := by
  have hne : sortedUnique (rows_st.map (fun r => r.leaid)) ≠ [] :=
    sortedUnique_ne_nil (by simpa using h)
  obtain ⟨ls, hls⟩ : ∃ ls,
      genLeas (sortedUnique (rows_st.map (fun r => r.leaid))) rows_st = some ls :=
    genLeas_some (fun lid hlid =>
      group_ne_nil_of_mem_keys (mem_sortedUnique.mp hlid))
  cases hk : sortedUnique (rows_st.map (fun r => r.leaid)) with
  | nil => exact absurd hk hne
  | cons lid rest =>
    rw [hk] at hls
    exact ⟨ls, by simp [genState, hk, hls]⟩

theorem genState_inv {rows_st : List Row} {ls : List LeaOut}
    (h : genState rows_st = some ls) :
    genLeas (sortedUnique (rows_st.map (fun r => r.leaid))) rows_st = some ls ∧
      sortedUnique (rows_st.map (fun r => r.leaid)) ≠ [] := by
  unfold genState at h
  cases hk : sortedUnique (rows_st.map (fun r => r.leaid)) with
  | nil => rw [hk] at h; exact absurd h (by simp)
  | cons lid rest =>
    rw [hk] at h
    exact ⟨h, by simp⟩

theorem genStates_map_state {sts : List String} {rows : List Row}
    {outs : List StateOut} (h : genStates sts rows = some outs) :
    outs.map (fun o => o.state) = sts := by
  induction sts generalizing outs with
  | nil => simp only [genStates, Option.some.injEq] at h; simp [← h]
  | cons st rest ih =>
    simp only [genStates] at h
    match h1 : genState (groupOfState rows st), h2 : genStates rest rows with
    | some leas, some outs' =>
      rw [h1, h2] at h
      simp only [Option.some.injEq] at h
      subst h
      simp [ih h2]
    | some _, none => rw [h1, h2] at h; exact absurd h (by simp)
    | none, _ => rw [h1] at h; exact absurd h (by simp)

theorem genStates_mem {sts : List String} {rows : List Row}
    {outs : List StateOut} (h : genStates sts rows = some outs) :
    ∀ o ∈ outs, genState (groupOfState rows o.state) = some o.leas := by
  induction sts generalizing outs with
  | nil =>
    simp only [genStates, Option.some.injEq] at h
    simp [← h]
  | cons st rest ih =>
    simp only [genStates] at h
    match h1 : genState (groupOfState rows st), h2 : genStates rest rows with
    | some leas, some outs' =>
      rw [h1, h2] at h
      simp only [Option.some.injEq] at h
      subst h
      intro o ho
      rcases List.mem_cons.mp ho with ho | ho
      · subst ho; exact h1
      · exact ih h2 o ho
    | some _, none => rw [h1, h2] at h; exact absurd h (by simp)
    | none, _ => rw [h1] at h; exact absurd h (by simp)

theorem stateGroup_ne_nil_of_mem_keys {rows : List Row} {st : String}
    (h : st ∈ rows.map (fun r => r.st)) : groupOfState rows st ≠ [] := by
  obtain ⟨r, hr, hrl⟩ := List.mem_map.mp h
  exact List.ne_nil_of_mem (List.mem_filter.mpr ⟨hr, by simp [hrl]⟩)

theorem genStates_some {sts : List String} {rows : List Row}
    (h : ∀ st ∈ sts, groupOfState rows st ≠ []) :
    ∃ outs, genStates sts rows = some outs := by
  rw [← Option.isSome_iff_exists]
  induction sts with
  | nil => rfl
  | cons st1 rest ih =>
    have hig := ih (fun x hx => h x (List.mem_cons_of_mem _ hx))
    obtain ⟨outs, houts⟩ := Option.isSome_iff_exists.mp hig
    obtain ⟨leas, hleas⟩ := genState_some (h st1 (List.mem_cons_self _ _))
    simp [genStates, hleas, houts]

theorem generate_some (rows : List Row) : ∃ outs, generate rows = some outs :=
  genStates_some (fun _ hst =>
    stateGroup_ne_nil_of_mem_keys (mem_sortedUnique.mp hst))

theorem generate_inv {rows : List Row} {outs : List StateOut}
    (h : generate rows = some outs) :
    outs.map (fun o => o.state) = sortedUnique (rows.map (fun r => r.st)) ∧
      ∀ o ∈ outs, genState (groupOfState rows o.state) = some o.leas :=
  ⟨genStates_map_state h, genStates_mem h⟩

/-- Facts about one State's LEA list, shared by several claims below:
its LEA ids are exactly the distinct LEA ids of the State's rows, without
duplicates, and each LEA's schools are exactly its group's rows. -/
theorem state_leas_facts {rows : List Row} {outs : List StateOut}
    (h : generate rows = some outs) {o : StateOut} (ho : o ∈ outs) :
    o.leas.map (fun l => l.leaID) =
        sortedUnique ((groupOfState rows o.state).map (fun r => r.leaid)) ∧
      ∀ l ∈ o.leas,
        l.openStatus = (groupOfLea (groupOfState rows o.state) l.leaID).map
          (fun s => { weeklyInPersonInstruction := "Not reported",
                      schoolID := s.ncessch, schoolName := s.sch_name }) := by
  have hst := (generate_inv h).2 o ho
  obtain ⟨hleas, -⟩ := genState_inv hst
  refine ⟨genLeas_map_leaID hleas, fun l hl => ?_⟩
  exact (genLea_inv (genLeas_mem hleas l hl)).2.2

/-! ## Claim theorems on the grouping phase. -/

/-- C1 (amended): for every input roster and every State, the set of LEA
ids of that State's output equals the set of distinct LEA ids of that
State's rows, with no duplicate LEA id in the output; and for every LEA,
the school ids of its `openStatus` array are exactly the school ids of
that LEA's input rows, in order and with their input multiplicities — so
their set equals the set of distinct school ids for that LEA, and a
school id appears twice only when its row appears twice in the input.
The original school-level "no duplication" is refuted by
`c1_duplicate_row_duplicates_school_id`. -/
theorem c1_id_sets_preserved :
    ∀ (rows : List Row) (outs : List StateOut), generate rows = some outs →
      ∀ o ∈ outs,
        ((o.leas.map (fun l => l.leaID)).Nodup ∧
          (o.leas.map (fun l => l.leaID)).toFinset =
            ((groupOfState rows o.state).map (fun r => r.leaid)).toFinset) ∧
        ∀ l ∈ o.leas,
          l.openStatus.map (fun s => s.schoolID) =
            (groupOfLea (groupOfState rows o.state) l.leaID).map
              (fun r => r.ncessch) ∧
          (l.openStatus.map (fun s => s.schoolID)).toFinset =
            ((groupOfLea (groupOfState rows o.state) l.leaID).map
              (fun r => r.ncessch)).toFinset := by
  intro rows outs h o ho
  obtain ⟨hmap, hsch⟩ := state_leas_facts h ho
  refine ⟨⟨?_, ?_⟩, fun l hl => ⟨?_, ?_⟩⟩
  · rw [hmap]; exact nodup_sortedUnique _
  · rw [hmap]; exact toFinset_sortedUnique _
  · rw [hsch l hl, List.map_map]
    rfl
  · rw [hsch l hl, List.map_map]
    rfl

/-- Witness for C1 at the spec's worked example roster. -/
theorem c1_id_sets_preserved_witness :
    ((OUT1.leas.map (fun l => l.leaID)).Nodup ∧
      (OUT1.leas.map (fun l => l.leaID)).toFinset =
        ((groupOfState ROWS1 OUT1.state).map (fun r => r.leaid)).toFinset) ∧
    LEA1.openStatus.map (fun s => s.schoolID) =
      (groupOfLea (groupOfState ROWS1 OUT1.state) LEA1.leaID).map
        (fun r => r.ncessch) ∧
    (LEA1.openStatus.map (fun s => s.schoolID)).toFinset =
      ((groupOfLea (groupOfState ROWS1 OUT1.state) LEA1.leaID).map
        (fun r => r.ncessch)).toFinset :=
  ⟨(c1_id_sets_preserved ROWS1 [OUT1] (by decide) OUT1
      (List.mem_singleton.mpr rfl)).1,
   (c1_id_sets_preserved ROWS1 [OUT1] (by decide) OUT1
      (List.mem_singleton.mpr rfl)).2 LEA1 (List.mem_singleton.mpr rfl)⟩

/-- Counterexample to C1 as stated: a roster in which the same school row
appears twice produces an `openStatus` array listing that school id
twice, so there is duplication at the school level; only the set of the
ids still matches the input's distinct ids. -/
theorem c1_duplicate_row_duplicates_school_id :
    generate DUPROWS = some [DUPOUT] ∧
    DUPOUT.leas = [DUPLEA] ∧
    DUPLEA.openStatus.map (fun s => s.schoolID) = ["001001", "001001"] ∧
    ¬ (DUPLEA.openStatus.map (fun s => s.schoolID)).Nodup := by
  refine ⟨by decide, rfl, rfl, by decide⟩

/-- C4: every school object emitted into any `openStatus` array carries
the literal status "Not reported", for every input roster. -/
theorem c4_status_always_not_reported :
    ∀ (rows : List Row) (outs : List StateOut), generate rows = some outs →
      ∀ o ∈ outs, ∀ l ∈ o.leas, ∀ s ∈ l.openStatus,
        s.weeklyInPersonInstruction = "Not reported" := by
  intro rows outs h o ho l hl s hs
  rw [(state_leas_facts h ho).2 l hl] at hs
  obtain ⟨r, -, hr⟩ := List.mem_map.mp hs
  rw [← hr]

/-- Witness for C4 at the spec's worked example roster. -/
theorem c4_status_always_not_reported_witness :
    SCH2.weeklyInPersonInstruction = "Not reported" :=
  c4_status_always_not_reported ROWS1 [OUT1] (by decide) OUT1
    (List.mem_singleton.mpr rfl) LEA1 (List.mem_singleton.mpr rfl) SCH2
    (by simp [LEA1])

/-- C5: the run emits one directory per distinct State code, in ascending
order and without duplicates, and every emitted file inside them is named
`school_operational_status.json`. -/
theorem c5_one_directory_per_state :
    ∀ (c d : String) (rows : List Row) (files : List (String × String × String)),
      run c d rows = some files →
        files.map (fun f => f.1) = sortedUnique (rows.map (fun r => r.st)) ∧
        (files.map (fun f => f.1)).Nodup ∧
        files.length = (rows.map (fun r => r.st)).dedup.length ∧
        ∀ f ∈ files, f.2.1 = OUTPUT_FILENAME := by
  intro c d rows files h
  unfold run at h
  cases hg : generate rows with
  | none => rw [hg] at h; exact absurd h (by simp)
  | some outs =>
    rw [hg] at h
    simp only [Option.map_some', Option.some.injEq] at h
    subst h
    have hmap : (outs.map (fun o => (o.state, OUTPUT_FILENAME,
        renderFile c d o))).map (fun f => f.1) =
        outs.map (fun o => o.state) := by
      rw [List.map_map]; rfl
    have hst := (generate_inv hg).1
    refine ⟨by rw [hmap, hst], by rw [hmap, hst]; exact nodup_sortedUnique _,
      ?_, fun f hf => ?_⟩
    · rw [List.length_map, ← List.length_map outs (fun o => o.state), hst,
        length_sortedUnique]
    · obtain ⟨o, -, hfo⟩ := List.mem_map.mp hf
      rw [← hfo]

/-- Witness for C5 at the spec's worked example roster. -/
theorem c5_one_directory_per_state_witness :
    ([("VA", OUTPUT_FILENAME, renderFile CONFORMANCE_URL SCHEMA_URL OUT1)].map
        (fun f => f.1) = sortedUnique (ROWS1.map (fun r => r.st)) ∧
      ([("VA", OUTPUT_FILENAME, renderFile CONFORMANCE_URL SCHEMA_URL OUT1)].map
        (fun f => f.1)).Nodup ∧
      [("VA", OUTPUT_FILENAME, renderFile CONFORMANCE_URL SCHEMA_URL OUT1)].length =
        (ROWS1.map (fun r => r.st)).dedup.length) ∧
    ("VA", OUTPUT_FILENAME,
      renderFile CONFORMANCE_URL SCHEMA_URL OUT1).2.1 = OUTPUT_FILENAME := by
  have h := c5_one_directory_per_state CONFORMANCE_URL SCHEMA_URL ROWS1
    [("VA", OUTPUT_FILENAME, renderFile CONFORMANCE_URL SCHEMA_URL OUT1)]
    (by rw [run, show generate ROWS1 = some [OUT1] from by decide]; rfl)
  exact ⟨⟨h.1, h.2.1, h.2.2.1⟩, h.2.2.2 _ (List.mem_singleton.mpr rfl)⟩

/-- C10: grouping never produces an empty State group or an empty LEA
group, so the source's unguarded `next(lea_iter)` and `iloc[0]` never
raise, and every emitted `lea` array and `openStatus` array is
non-empty. -/
theorem c10_groups_never_empty :
    ∀ rows : List Row, ∃ outs, generate rows = some outs ∧
      ∀ o ∈ outs, o.leas ≠ [] ∧ ∀ l ∈ o.leas, l.openStatus ≠ [] := by
  intro rows
  obtain ⟨outs, houts⟩ := generate_some rows
  refine ⟨outs, houts, fun o ho => ⟨?_, fun l hl => ?_⟩⟩
  · have hst := (generate_inv houts).2 o ho
    obtain ⟨hleas, hne⟩ := genState_inv hst
    intro hnil
    rw [hnil] at hleas
    exact hne ((genLeas_map_leaID hleas).symm.trans (by simp))
  · have hst := (generate_inv houts).2 o ho
    obtain ⟨hleas, -⟩ := genState_inv hst
    obtain ⟨hg, -, hos⟩ := genLea_inv (genLeas_mem hleas l hl)
    rw [hos]
    simpa using hg

/-! ## Lemmas about separator placement in the rendered text. -/

theorem intercalate_go_prefix (s : String) :
    ∀ (xs : List String) (pre acc : String),
      String.intercalate.go (pre ++ acc) s xs =
        pre ++ String.intercalate.go acc s xs := by
  intro xs
  induction xs with
  | nil => intro pre acc; rfl
  | cons a as ih =>
    intro pre acc
    show String.intercalate.go (pre ++ acc ++ s ++ a) s as =
      pre ++ String.intercalate.go (acc ++ s ++ a) s as
    rw [String.append_assoc (pre ++ acc) s a, String.append_assoc pre acc (s ++ a),
      ih pre (acc ++ (s ++ a)), String.append_assoc acc s a]

theorem intercalate_cons_cons (s x y : String) (xs : List String) :
    String.intercalate s (x :: y :: xs) =
      x ++ (s ++ String.intercalate s (y :: xs)) := by
  show String.intercalate.go (x ++ s ++ y) s xs =
    x ++ (s ++ String.intercalate.go y s xs)
  rw [String.append_assoc x s y, intercalate_go_prefix s xs x (s ++ y),
    intercalate_go_prefix s xs s y]

/-- The `openStatus` body equals its school texts joined with exactly one
`SEPARATOR` between consecutive elements and none at either end. -/
theorem renderSchools_eq_intercalate (l : List SchoolOut) :
    renderSchools l = String.intercalate SEPARATOR (l.map renderSchool) := by
  match l with
  | [] => rfl
  | [x] => rfl
  | x :: y :: xs =>
    rw [List.map_cons, List.map_cons, intercalate_cons_cons,
      ← List.map_cons renderSchool y xs, ← renderSchools_eq_intercalate (y :: xs)]
    rfl

/-- The `lea` array body equals its LEA block texts joined with exactly
one `SEPARATOR` between consecutive elements and none at either end. -/
theorem renderLeas_eq_intercalate (l : List LeaOut) :
    renderLeas l = String.intercalate SEPARATOR (l.map renderLea) := by
  match l with
  | [] => rfl
  | [x] => rfl
  | x :: y :: xs =>
    rw [List.map_cons, List.map_cons, intercalate_cons_cons,
      ← List.map_cons renderLea y xs, ← renderLeas_eq_intercalate (y :: xs)]
    rfl

/-- C2: in every emitted file, sibling elements of the `lea` array and of
each `openStatus` array are joined by exactly one `SEPARATOR` between
consecutive elements and none after the last one (`String.intercalate`
semantics); and the single-LEA single-school roster yields an
`openStatus` array with exactly one element and no separator occurrence
in its body. -/
theorem c2_separator_placement :
    (∀ (c d : String) (rows : List Row) (outs : List StateOut),
        generate rows = some outs → ∀ o ∈ outs,
          renderFile c d o =
            PREFIX_FORMAT c d ++ ("\n" ++
              (String.intercalate SEPARATOR (o.leas.map renderLea) ++
                (SUFFIX ++ "\n"))) ∧
          ∀ l ∈ o.leas,
            renderLea l =
              LEA_PREFIX_FORMAT l.leaID l.leaName ++
                (String.intercalate SEPARATOR (l.openStatus.map renderSchool) ++
                  LEA_SUFFIX)) ∧
    generate ROWS2 = some [OUT2] ∧
    LEA2.openStatus.length = 1 ∧
    renderSchools LEA2.openStatus = renderSchool SCH1 ∧
    countSub (SEPARATOR.data) ((renderSchools LEA2.openStatus).data) = 0 := by
  refine ⟨fun c d rows outs h o ho => ⟨?_, fun l hl => ?_⟩, by decide, rfl, rfl, by decide⟩
  · rw [renderFile, ← renderLeas_eq_intercalate]
  · rw [renderLea, ← renderSchools_eq_intercalate]

/-- Witness for C2 at the single-LEA single-school roster. -/
theorem c2_separator_placement_witness :
    renderFile CONFORMANCE_URL SCHEMA_URL OUT2 =
      PREFIX_FORMAT CONFORMANCE_URL SCHEMA_URL ++ ("\n" ++
        (String.intercalate SEPARATOR (OUT2.leas.map renderLea) ++
          (SUFFIX ++ "\n"))) ∧
    renderLea LEA2 =
      LEA_PREFIX_FORMAT LEA2.leaID LEA2.leaName ++
        (String.intercalate SEPARATOR (LEA2.openStatus.map renderSchool) ++
          LEA_SUFFIX) := by
  have h := c2_separator_placement.1 CONFORMANCE_URL SCHEMA_URL ROWS2 [OUT2]
    (by decide) OUT2 (List.mem_singleton.mpr rfl)
  exact ⟨h.1, h.2 LEA2 (List.mem_singleton.mpr rfl)⟩

/-- C3: every emitted file starts with the fixed preamble: the opening
brace, the `conformsTo` and `describedBy` members holding the two URLs,
the literal `reportingPeriodStartDate` "2021-05-10", then four fields all
literally named "comment" describing the four status values, in that
order, before the `"lea"` array key; the constant preamble text between
the `describedBy` value and the `lea` key contains exactly four
occurrences of a `"comment"` field name and the text before it none. -/
theorem c3_fixed_preamble :
    ∀ (c d : String) (rows : List Row) (outs : List StateOut),
      generate rows = some outs → ∀ o ∈ outs,
        (∃ rest, renderFile c d o =
          "\x7b\n\"conformsTo\": \"" ++ (c ++ ("\",\n\"describedBy\": \"" ++ (d ++
            ("\",\n\"reportingPeriodStartDate\": \"2021-05-10\",\n\"comment\": \"For each school, record All if all enrolled students were offered in-person instruction the full week\",\n\"comment\": \"record None if no enrolled student was offered in-person instruction any day of the reporting week,\",\n\"comment\": \"record Hybrid if the school was in session but the other two responses are not accurate,\",\n\"comment\": \"and record Not in session if the school was not in session for the reporting week.\",\n\"lea\": [\n"
              ++ rest))))) ∧
        countSub (("\"comment\"").data) ((PRE3).data) = 4 ∧
        countSub (("\"comment\"").data) ((PRE1).data) = 0 ∧
        countSub (("\"comment\"").data) ((PRE2).data) = 0 := by
  intro c d rows outs h o ho
  refine ⟨⟨"\n" ++ (renderLeas o.leas ++ (SUFFIX ++ "\n")), ?_⟩,
    by decide, by decide, by decide⟩
  show PREFIX_FORMAT c d ++ ("\n" ++ (renderLeas o.leas ++ (SUFFIX ++ "\n"))) = _
  rw [PREFIX_FORMAT]
  simp only [String.append_assoc]
  rfl

/-- Witness for C3 at the single-LEA single-school roster. -/
theorem c3_fixed_preamble_witness :
    (∃ rest, renderFile CONFORMANCE_URL SCHEMA_URL OUT2 =
      "\x7b\n\"conformsTo\": \"" ++ (CONFORMANCE_URL ++ ("\",\n\"describedBy\": \"" ++ (SCHEMA_URL ++
        ("\",\n\"reportingPeriodStartDate\": \"2021-05-10\",\n\"comment\": \"For each school, record All if all enrolled students were offered in-person instruction the full week\",\n\"comment\": \"record None if no enrolled student was offered in-person instruction any day of the reporting week,\",\n\"comment\": \"record Hybrid if the school was in session but the other two responses are not accurate,\",\n\"comment\": \"and record Not in session if the school was not in session for the reporting week.\",\n\"lea\": [\n"
          ++ rest))))) ∧
    countSub (("\"comment\"").data) ((PRE3).data) = 4 ∧
    countSub (("\"comment\"").data) ((PRE1).data) = 0 ∧
    countSub (("\"comment\"").data) ((PRE2).data) = 0 :=
  c3_fixed_preamble CONFORMANCE_URL SCHEMA_URL ROWS2 [OUT2] (by decide) OUT2
    (List.mem_singleton.mpr rfl)

/-- Each State file splits into the fixed prefix, the first URL, the fixed
middle, the second URL, and a tail that does not depend on the URLs. -/
theorem renderFile_decompose (c d : String) (o : StateOut) :
    renderFile c d o = PRE1 ++ (c ++ (PRE2 ++ (d ++ fileTail o))) := by
  rw [renderFile, PREFIX_FORMAT, fileTail]
  simp only [String.append_assoc]

/-- C8: two runs on the same roster that differ only in the
`--conformance` and `--schema` flag values produce the same directories
and file names in the same order, and each pair of corresponding files
differs only in the `conformsTo` and `describedBy` value slots: the text
around those two slots is byte-for-byte identical. -/
theorem c8_only_url_slots_change :
    ∀ (c d c' d' : String) (rows : List Row)
      (files files' : List (String × String × String)),
      run c d rows = some files → run c' d' rows = some files' →
        ∃ outs, generate rows = some outs ∧
          files = outs.map (fun o => (o.state, OUTPUT_FILENAME,
            PRE1 ++ (c ++ (PRE2 ++ (d ++ fileTail o))))) ∧
          files' = outs.map (fun o => (o.state, OUTPUT_FILENAME,
            PRE1 ++ (c' ++ (PRE2 ++ (d' ++ fileTail o))))) := by
  intro c d c' d' rows files files' h h'
  unfold run at h h'
  cases hg : generate rows with
  | none => rw [hg] at h; exact absurd h (by simp)
  | some outs =>
    rw [hg] at h h'
    simp only [Option.map_some', Option.some.injEq] at h h'
    subst h
    subst h'
    refine ⟨outs, rfl, ?_, ?_⟩ <;>
      exact List.map_congr_left (fun o _ => by rw [renderFile_decompose])

/-- Witness for C8: overriding both URLs on the single-school roster. -/
theorem c8_only_url_slots_change_witness :
    ∃ outs, generate ROWS2 = some outs ∧
      [("VA", OUTPUT_FILENAME, renderFile CONFORMANCE_URL SCHEMA_URL OUT2)] =
        outs.map (fun o => (o.state, OUTPUT_FILENAME,
          PRE1 ++ (CONFORMANCE_URL ++ (PRE2 ++ (SCHEMA_URL ++ fileTail o))))) ∧
      [("VA", OUTPUT_FILENAME,
          renderFile ("https://example.org/conf") ("https://example.org/schema") OUT2)] =
        outs.map (fun o => (o.state, OUTPUT_FILENAME,
          PRE1 ++ (("https://example.org/conf") ++ (PRE2 ++
            (("https://example.org/schema") ++ fileTail o))))) :=
  c8_only_url_slots_change CONFORMANCE_URL SCHEMA_URL
    ("https://example.org/conf") ("https://example.org/schema") ROWS2
    [("VA", OUTPUT_FILENAME, renderFile CONFORMANCE_URL SCHEMA_URL OUT2)]
    [("VA", OUTPUT_FILENAME,
        renderFile ("https://example.org/conf") ("https://example.org/schema") OUT2)]
    (by rw [run, show generate ROWS2 = some [OUT2] from by decide]; rfl)
    (by rw [run, show generate ROWS2 = some [OUT2] from by decide]; rfl)

/-! ## Lemmas about the file-system model. -/

theorem applyOutputs_dirs (l : List (String × String × String)) :
    ∀ (fs : FS) (x : String),
      (applyOutputs fs l).dirs x = (fs.dirs x || l.any (fun o => x == o.1)) := by
  induction l with
  | nil => intro fs x; simp [applyOutputs]
  | cons o rest ih =>
    intro fs x
    obtain ⟨d, n, c⟩ := o
    rw [applyOutputs, ih]
    simp only [writeFile, mkdirIfAbsent, List.any_cons]
    cases hb : (x == d) <;> simp [hb]

theorem applyOutputs_files (l : List (String × String × String)) :
    ∀ (fs : FS) (x y : String),
      (applyOutputs fs l).files x y =
        match lastContent? l x y with
        | some c => some c
        | none => fs.files x y := by
  induction l with
  | nil => intro fs x y; rfl
  | cons o rest ih =>
    intro fs x y
    obtain ⟨d, n, c⟩ := o
    rw [applyOutputs, ih]
    cases hlc : lastContent? rest x y with
    | some c' => simp [lastContent?, hlc]
    | none =>
      by_cases hxy : x = d ∧ y = n
      · obtain ⟨hx, hy⟩ := hxy
        subst hx
        subst hy
        simp [lastContent?, hlc, writeFile]
      · simp [lastContent?, hlc, writeFile, mkdirIfAbsent, hxy]

/-- Re-running the same list of writes leaves the file system fixed. -/
theorem applyOutputs_idem (fs : FS) (l : List (String × String × String)) :
    applyOutputs (applyOutputs fs l) l = applyOutputs fs l := by
  apply FS.ext
  · funext x
    rw [applyOutputs_dirs, applyOutputs_dirs, Bool.or_assoc, Bool.or_self]
  · funext x y
    rw [applyOutputs_files, applyOutputs_files]
    cases hlc : lastContent? l x y with
    | some c => rfl
    | none => rfl

/-- C7: running the generator twice with the same input, flags and output
directory leaves the file system exactly as after the first run: the
second run recreates no directories (creation is idempotent) and rewrites
every per-State file with byte-identical content. -/
theorem c7_second_run_identical :
    ∀ (c d : String) (rows : List Row) (fs fs1 : FS),
      runOnFS c d rows fs = some fs1 → runOnFS c d rows fs1 = some fs1 := by
  intro c d rows fs fs1 h
  unfold runOnFS at h ⊢
  cases hr : run c d rows with
  | none => rw [hr] at h; exact absurd h (by simp)
  | some files =>
    rw [hr] at h
    simp only [Option.map_some', Option.some.injEq] at h
    rw [Option.map_some', ← h, applyOutputs_idem]

/-- Witness for C7: a run over the single-school roster applied to the
empty file system. -/
theorem c7_second_run_identical_witness :
    runOnFS CONFORMANCE_URL SCHEMA_URL ROWS2
        (applyOutputs FS0
          [("VA", OUTPUT_FILENAME, renderFile CONFORMANCE_URL SCHEMA_URL OUT2)]) =
      some (applyOutputs FS0
        [("VA", OUTPUT_FILENAME, renderFile CONFORMANCE_URL SCHEMA_URL OUT2)]) :=
  c7_second_run_identical CONFORMANCE_URL SCHEMA_URL ROWS2 FS0
    (applyOutputs FS0
      [("VA", OUTPUT_FILENAME, renderFile CONFORMANCE_URL SCHEMA_URL OUT2)])
    (by rw [runOnFS, run, show generate ROWS2 = some [OUT2] from by decide]; rfl)

/-- C9: evaluation of the argument parser at the claim's failing input.
The claim says the input file path is a required positional argument and
that parsing fails without one; the parser actually accepts an empty
command line and proceeds with the hard-coded default `ccd_sch_sas.csv`,
while a bare positional file name (the usage shown in the module
docstring) is rejected as unrecognized. -/
theorem c9_input_path_not_required_positional :
    parseTokens DEFAULT_ARGS [] = Except.ok DEFAULT_ARGS ∧
    DEFAULT_ARGS.ccd_file = "ccd_sch_sas.csv" ∧
    parseTokens DEFAULT_ARGS [("ccdfile.csv")] =
      Except.error ("unrecognized arguments: ccdfile.csv") :=
  ⟨rfl, rfl, rfl⟩

/-! ## Stepping lemmas for the JSON validator. -/

theorem skipWs_space (x : List Char) : skipWs (' ' :: x) = skipWs x := rfl
theorem skipWs_nl (x : List Char) : skipWs ('\n' :: x) = skipWs x := rfl
theorem skipWs_quote (x : List Char) : skipWs ('"' :: x) = '"' :: x := rfl

theorem skipStringBody_append :
    ∀ (l : List Char), l.all isSafeChar = true →
      ∀ rest, skipStringBody (l ++ '"' :: rest) = some rest := by
  intro l hl rest
  induction l with
  | nil => rfl
  | cons c l ih =>
    simp only [List.all_cons, Bool.and_eq_true] at hl
    have hc : ¬ (c = '"') := by
      intro h
      rw [h] at hl
      exact absurd hl.1 (by decide)
    simp only [List.cons_append, skipStringBody, if_neg hc, if_pos hl.1]
    exact ih hl.2

theorem string_value (f : Nat) (s : String) (rest : List Char)
    (hs : safeStr s = true) :
    skipValue (f + 1) ('"' :: (s.data ++ ('"' :: rest))) = some rest := by
  have e1 : skipValue (f + 1) ('"' :: (s.data ++ ('"' :: rest))) =
      skipStringBody (s.data ++ ('"' :: rest)) := rfl
  rw [e1, skipStringBody_append s.data hs rest]

theorem member_cont_gen (f : Nat) (key : String) (v r' rest' : List Char)
    (hk : safeStr key = true)
    (hv : skipValue f (skipWs v) = some r')
    (hr : skipWs r' = ',' :: rest') :
    skipMembers (f + 1) ('"' :: (key.data ++ ('"' :: ':' :: ' ' :: v))) =
      skipMembers f (skipWs rest') := by
  have e1 : skipMembers (f + 1) ('"' :: (key.data ++ ('"' :: ':' :: ' ' :: v))) =
      match skipStringBody (key.data ++ ('"' :: ':' :: ' ' :: v)) with
      | none => none
      | some r1 =>
        match skipWs r1 with
        | ':' :: r2 =>
          (match skipValue f (skipWs r2) with
           | none => none
           | some r3 =>
             match skipWs r3 with
             | ',' :: r4 => skipMembers f (skipWs r4)
             | '\x7d' :: r4 => some r4
             | _ => none)
        | _ => none := by rfl
  rw [e1, skipStringBody_append key.data hk]
  show (match skipValue f (skipWs (' ' :: v)) with
        | none => none
        | some r3 =>
          match skipWs r3 with
          | ',' :: r4 => skipMembers f (skipWs r4)
          | '\x7d' :: r4 => some r4
          | _ => none) = skipMembers f (skipWs rest')
  rw [skipWs_space, hv]
  show (match skipWs r' with
        | ',' :: r4 => skipMembers f (skipWs r4)
        | '\x7d' :: r4 => some r4
        | _ => none) = skipMembers f (skipWs rest')
  rw [hr]
  rfl

theorem member_last_gen (f : Nat) (key : String) (v r' rest : List Char)
    (hk : safeStr key = true)
    (hv : skipValue f (skipWs v) = some r')
    (hr : skipWs r' = '\x7d' :: rest) :
    skipMembers (f + 1) ('"' :: (key.data ++ ('"' :: ':' :: ' ' :: v))) = some rest := by
  have e1 : skipMembers (f + 1) ('"' :: (key.data ++ ('"' :: ':' :: ' ' :: v))) =
      match skipStringBody (key.data ++ ('"' :: ':' :: ' ' :: v)) with
      | none => none
      | some r1 =>
        match skipWs r1 with
        | ':' :: r2 =>
          (match skipValue f (skipWs r2) with
           | none => none
           | some r3 =>
             match skipWs r3 with
             | ',' :: r4 => skipMembers f (skipWs r4)
             | '\x7d' :: r4 => some r4
             | _ => none)
        | _ => none := by rfl
  rw [e1, skipStringBody_append key.data hk]
  show (match skipValue f (skipWs (' ' :: v)) with
        | none => none
        | some r3 =>
          match skipWs r3 with
          | ',' :: r4 => skipMembers f (skipWs r4)
          | '\x7d' :: r4 => some r4
          | _ => none) = some rest
  rw [skipWs_space, hv]
  show (match skipWs r' with
        | ',' :: r4 => skipMembers f (skipWs r4)
        | '\x7d' :: r4 => some r4
        | _ => none) = some rest
  rw [hr]
  rfl

theorem object_value_eq (f : Nat) (body tail : List Char)
    (hws : skipWs body = '"' :: tail) :
    skipValue (f + 1) ('\x7b' :: body) = skipMembers f ('"' :: tail) := by
  have e1 : skipValue (f + 1) ('\x7b' :: body) =
      match skipWs body with
      | '\x7d' :: r2 => some r2
      | r2 => skipMembers f r2 := by rfl
  rw [e1, hws]
  rfl

theorem array_value_eq (f : Nat) (body tail : List Char)
    (hws : skipWs body = '\x7b' :: tail) :
    skipValue (f + 1) ('[' :: body) = skipElems f ('\x7b' :: tail) := by
  have e1 : skipValue (f + 1) ('[' :: body) =
      match skipWs body with
      | ']' :: r2 => some r2
      | r2 => skipElems f r2 := by rfl
  rw [e1, hws]
  rfl

theorem elems_cont_gen (f : Nat) (s r' rest' : List Char)
    (hv : skipValue f s = some r')
    (hr : skipWs r' = ',' :: rest') :
    skipElems (f + 1) s = skipElems f (skipWs rest') := by
  have e1 : skipElems (f + 1) s =
      match skipValue f s with
      | none => none
      | some r =>
        match skipWs r with
        | ',' :: r2 => skipElems f (skipWs r2)
        | ']' :: r2 => some r2
        | _ => none := by rfl
  rw [e1, hv]
  show (match skipWs r' with
        | ',' :: r2 => skipElems f (skipWs r2)
        | ']' :: r2 => some r2
        | _ => none) = skipElems f (skipWs rest')
  rw [hr]
  rfl

theorem elems_last_gen (f : Nat) (s r' rest : List Char)
    (hv : skipValue f s = some r')
    (hr : skipWs r' = ']' :: rest) :
    skipElems (f + 1) s = some rest := by
  have e1 : skipElems (f + 1) s =
      match skipValue f s with
      | none => none
      | some r =>
        match skipWs r with
        | ',' :: r2 => skipElems f (skipWs r2)
        | ']' :: r2 => some r2
        | _ => none := by rfl
  rw [e1, hv]
  show (match skipWs r' with
        | ',' :: r2 => skipElems f (skipWs r2)
        | ']' :: r2 => some r2
        | _ => none) = some rest
  rw [hr]
  rfl

theorem school_value (f : Nat) (w i n : String) (rest : List Char)
    (hw : safeStr w = true) (hi : safeStr i = true) (hn : safeStr n = true) :
    skipValue (f + 5) ('\x7b' :: ' ' :: '"' :: (("weeklyInPersonInstruction").data ++
      ('"' :: ':' :: ' ' :: '"' :: (w.data ++
        ('"' :: ',' :: ' ' :: '"' :: (("schoolID").data ++
          ('"' :: ':' :: ' ' :: '"' :: (i.data ++
            ('"' :: ',' :: ' ' :: '"' :: (("schoolName").data ++
              ('"' :: ':' :: ' ' :: '"' :: (n.data ++
                ('"' :: ' ' :: '\x7d' :: rest))))))))))))) = some rest := by
  refine Eq.trans (object_value_eq (f + 4) _ _ (by rfl)) ?_
  refine Eq.trans (member_cont_gen (f + 3) _ _ _ _ (by decide)
    (by rw [skipWs_quote]; exact string_value (f + 2) w _ hw) (by rfl)) ?_
  rw [skipWs_space, skipWs_quote]
  refine Eq.trans (member_cont_gen (f + 2) _ _ _ _ (by decide)
    (by rw [skipWs_quote]; exact string_value (f + 1) i _ hi) (by rfl)) ?_
  rw [skipWs_space, skipWs_quote]
  exact member_last_gen (f + 1) _ _ _ _ (by decide)
    (by rw [skipWs_quote]; exact string_value f n _ hn) (by rfl)

theorem skipWs_lbrace (x : List Char) : skipWs ('\x7b' :: x) = '\x7b' :: x := rfl

theorem skipWs_lbracket (x : List Char) : skipWs ('[' :: x) = '[' :: x := rfl

theorem lit_school1 (X : List Char) :
    ("  \x7b \"weeklyInPersonInstruction\": \"").data ++ X =
      ' ' :: ' ' :: '\x7b' :: ' ' :: '"' ::
        (("weeklyInPersonInstruction").data ++ ('"' :: ':' :: ' ' :: '"' :: X)) := rfl

theorem lit_school2 (X : List Char) :
    ("\", \"schoolID\": \"").data ++ X =
      '"' :: ',' :: ' ' :: '"' ::
        (("schoolID").data ++ ('"' :: ':' :: ' ' :: '"' :: X)) := rfl

theorem lit_school3 (X : List Char) :
    ("\", \"schoolName\": \"").data ++ X =
      '"' :: ',' :: ' ' :: '"' ::
        (("schoolName").data ++ ('"' :: ':' :: ' ' :: '"' :: X)) := rfl

theorem lit_school4 (X : List Char) :
    ("\" \x7d").data ++ X = '"' :: ' ' :: '\x7d' :: X := rfl

theorem lit_sep (X : List Char) :
    (SEPARATOR).data ++ X = ',' :: '\n' :: X := rfl

theorem renderSchool_decomp (s : SchoolOut) (X : List Char) :
    (renderSchool s).data ++ X =
      ' ' :: ' ' :: '\x7b' :: ' ' :: '"' :: (("weeklyInPersonInstruction").data ++
        ('"' :: ':' :: ' ' :: '"' :: (s.weeklyInPersonInstruction.data ++
          ('"' :: ',' :: ' ' :: '"' :: (("schoolID").data ++
            ('"' :: ':' :: ' ' :: '"' :: (s.schoolID.data ++
              ('"' :: ',' :: ' ' :: '"' :: (("schoolName").data ++
                ('"' :: ':' :: ' ' :: '"' :: (s.schoolName.data ++
                  ('"' :: ' ' :: '\x7d' :: X)))))))))))) := by
  simp only [renderSchool, String.data_append, List.append_assoc]
  rw [lit_school1, lit_school2, lit_school3, lit_school4]

theorem safeSchool_fields {s : SchoolOut} (hs : safeSchool s = true) :
    safeStr s.weeklyInPersonInstruction = true ∧ safeStr s.schoolID = true ∧
      safeStr s.schoolName = true := by
  simpa [safeSchool, Bool.and_eq_true, and_assoc] using hs

theorem elems_schools :
    ∀ (ss : List SchoolOut) (s : SchoolOut) (f : Nat) (rest : List Char),
      safeSchool s = true → ss.all safeSchool = true →
      skipElems (6 * ss.length + 6 + f)
        (skipWs ((renderSchools (s :: ss)).data ++ ('\n' :: ']' :: rest))) = some rest := by
  intro ss
  induction ss with
  | nil =>
    intro s f rest hs _
    obtain ⟨hw, hi, hn⟩ := safeSchool_fields hs
    rw [show renderSchools [s] = renderSchool s from rfl, renderSchool_decomp,
      skipWs_space, skipWs_space, skipWs_lbrace,
      show 6 * List.length ([] : List SchoolOut) + 6 + f = (f + 5) + 1 from by
        simp [List.length_nil]; omega]
    exact elems_last_gen (f + 5) _ _ _
      (school_value f _ _ _ ('\n' :: ']' :: rest) hw hi hn) (by rfl)
  | cons s2 ss2 ih =>
    intro s f rest hs hss
    simp only [List.all_cons, Bool.and_eq_true] at hss
    obtain ⟨hs2, hss2⟩ := hss
    obtain ⟨hw, hi, hn⟩ := safeSchool_fields hs
    rw [show renderSchools (s :: s2 :: ss2) =
        renderSchool s ++ (SEPARATOR ++ renderSchools (s2 :: ss2)) from rfl]
    simp only [String.data_append, List.append_assoc]
    rw [renderSchool_decomp, lit_sep, skipWs_space, skipWs_space, skipWs_lbrace,
      show 6 * List.length (s2 :: ss2) + 6 + f =
        (6 * ss2.length + 11 + f) + 1 from by simp [List.length_cons]; omega]
    refine Eq.trans (elems_cont_gen (6 * ss2.length + 11 + f) _ _ _
      (by rw [show 6 * ss2.length + 11 + f = (6 * ss2.length + 6 + f) + 5 from by omega]
          exact school_value (6 * ss2.length + 6 + f) _ _ _ _ hw hi hn) (by rfl)) ?_
    rw [skipWs_nl,
      show 6 * ss2.length + 11 + f = 6 * ss2.length + 6 + (f + 5) from by omega]
    exact ih s2 (f + 5) rest hs2 hss2

theorem lit_lea1 (X : List Char) :
    ("\x7b\"leaID\": \"").data ++ X =
      '\x7b' :: '"' :: (("leaID").data ++ ('"' :: ':' :: ' ' :: '"' :: X)) := rfl

theorem lit_lea2 (X : List Char) :
    ("\", \"leaName\": \"").data ++ X =
      '"' :: ',' :: ' ' :: '"' ::
        (("leaName").data ++ ('"' :: ':' :: ' ' :: '"' :: X)) := rfl

theorem lit_lea3 (X : List Char) :
    ("\", \"openStatus\": [\n").data ++ X =
      '"' :: ',' :: ' ' :: '"' ::
        (("openStatus").data ++ ('"' :: ':' :: ' ' :: '[' :: '\n' :: X)) := rfl

theorem lit_leasuf (X : List Char) :
    (LEA_SUFFIX).data ++ X = '\n' :: ']' :: '\x7d' :: X := rfl

theorem renderLea_decomp (l : LeaOut) (X : List Char) :
    (renderLea l).data ++ X =
      '\x7b' :: '"' :: (("leaID").data ++ ('"' :: ':' :: ' ' :: '"' :: (l.leaID.data ++
        ('"' :: ',' :: ' ' :: '"' :: (("leaName").data ++
          ('"' :: ':' :: ' ' :: '"' :: (l.leaName.data ++
            ('"' :: ',' :: ' ' :: '"' :: (("openStatus").data ++
              ('"' :: ':' :: ' ' :: '[' :: '\n' ::
                ((renderSchools l.openStatus).data ++
                  ('\n' :: ']' :: '\x7d' :: X)))))))))))) := by
  simp only [renderLea, LEA_PREFIX_FORMAT, String.data_append, List.append_assoc]
  rw [lit_lea1, lit_lea2, lit_lea3, lit_leasuf]

theorem skipWs_schools_head (s : SchoolOut) (ss : List SchoolOut) (X : List Char) :
    ∃ tail, skipWs ((renderSchools (s :: ss)).data ++ X) = '\x7b' :: tail := by
  cases ss with
  | nil =>
    rw [show renderSchools [s] = renderSchool s from rfl, renderSchool_decomp,
      skipWs_space, skipWs_space, skipWs_lbrace]
    exact ⟨_, rfl⟩
  | cons s2 ss2 =>
    rw [show renderSchools (s :: s2 :: ss2) =
        renderSchool s ++ (SEPARATOR ++ renderSchools (s2 :: ss2)) from rfl]
    simp only [String.data_append, List.append_assoc]
    rw [renderSchool_decomp, skipWs_space, skipWs_space, skipWs_lbrace]
    exact ⟨_, rfl⟩

theorem lea_value (f : Nat) (l : LeaOut) (rest : List Char)
    (hne : l.openStatus ≠ [])
    (hid : safeStr l.leaID = true) (hname : safeStr l.leaName = true)
    (hsch : l.openStatus.all safeSchool = true) :
    skipValue (6 * l.openStatus.length + 11 + f) ((renderLea l).data ++ rest) =
      some rest := by
  obtain ⟨s, ss, hls⟩ : ∃ s ss, l.openStatus = s :: ss := by
    cases hl : l.openStatus with
    | nil => exact absurd hl hne
    | cons s ss => exact ⟨s, ss, rfl⟩
  rw [hls] at hsch
  simp only [List.all_cons, Bool.and_eq_true] at hsch
  obtain ⟨hs1, hsrest⟩ := hsch
  obtain ⟨tl, htl⟩ := skipWs_schools_head s ss ('\n' :: ']' :: '\x7d' :: rest)
  have helems : skipElems (6 * ss.length + 6 + (f + 6)) ('\x7b' :: tl) =
      some ('\x7d' :: rest) := by
    rw [← htl]
    exact elems_schools ss s (f + 6) ('\x7d' :: rest) hs1 hsrest
  rw [renderLea_decomp,
    show 6 * l.openStatus.length + 11 + f =
      (6 * l.openStatus.length + 10 + f) + 1 from by omega]
  refine Eq.trans (object_value_eq (6 * l.openStatus.length + 10 + f) _ _ (by rfl)) ?_
  rw [show 6 * l.openStatus.length + 10 + f =
      (6 * l.openStatus.length + 9 + f) + 1 from by omega]
  refine Eq.trans (member_cont_gen (6 * l.openStatus.length + 9 + f) _ _ _ _ (by decide)
    (by rw [skipWs_quote,
          show 6 * l.openStatus.length + 9 + f =
            (6 * l.openStatus.length + 8 + f) + 1 from by omega]
        exact string_value (6 * l.openStatus.length + 8 + f) l.leaID _ hid)
    (by rfl)) ?_
  rw [skipWs_space, skipWs_quote,
    show 6 * l.openStatus.length + 9 + f =
      (6 * l.openStatus.length + 8 + f) + 1 from by omega]
  refine Eq.trans (member_cont_gen (6 * l.openStatus.length + 8 + f) _ _ _ _ (by decide)
    (by rw [skipWs_quote,
          show 6 * l.openStatus.length + 8 + f =
            (6 * l.openStatus.length + 7 + f) + 1 from by omega]
        exact string_value (6 * l.openStatus.length + 7 + f) l.leaName _ hname)
    (by rfl)) ?_
  rw [skipWs_space, skipWs_quote,
    show 6 * l.openStatus.length + 8 + f =
      (6 * l.openStatus.length + 7 + f) + 1 from by omega]
  have hv : skipValue (6 * l.openStatus.length + 7 + f)
      (skipWs ('[' :: '\n' :: ((renderSchools l.openStatus).data ++
        ('\n' :: ']' :: '\x7d' :: rest)))) = some ('\x7d' :: rest) := by
    rw [skipWs_lbracket,
      show 6 * l.openStatus.length + 7 + f =
        (6 * l.openStatus.length + 6 + f) + 1 from by omega]
    refine Eq.trans (array_value_eq (6 * l.openStatus.length + 6 + f) _ tl
      (by rw [skipWs_nl, hls]; exact htl)) ?_
    rw [show 6 * l.openStatus.length + 6 + f =
        6 * ss.length + 6 + (f + 6) from by rw [hls]; simp [List.length_cons]; omega]
    exact helems
  exact member_last_gen (6 * l.openStatus.length + 7 + f) _ _ _ _ (by decide)
    hv (by rfl)

theorem skipWs_renderLea (l : LeaOut) (X : List Char) :
    skipWs ((renderLea l).data ++ X) = (renderLea l).data ++ X := by
  rw [renderLea_decomp]
  exact skipWs_lbrace _

theorem elems_leas :
    ∀ (ls : List LeaOut) (l : LeaOut) (f : Nat) (rest : List Char),
      (∀ x ∈ l :: ls, x.openStatus ≠ [] ∧ safeStr x.leaID = true ∧
        safeStr x.leaName = true ∧ x.openStatus.all safeSchool = true) →
      skipElems (leaFuelList (l :: ls) + f)
        (skipWs ((renderLeas (l :: ls)).data ++ ('\n' :: ']' :: rest))) = some rest := by
  intro ls
  induction ls with
  | nil =>
    intro l f rest hsafe
    obtain ⟨hne, hid, hname, hsch⟩ := hsafe l (List.mem_cons_self _ _)
    rw [show renderLeas [l] = renderLea l from rfl, skipWs_renderLea,
      show leaFuelList [l] + f =
        (6 * l.openStatus.length + 11 + f) + 1 from by simp [leaFuelList]; omega]
    exact elems_last_gen (6 * l.openStatus.length + 11 + f) _ _ _
      (lea_value f l ('\n' :: ']' :: rest) hne hid hname hsch) (by rfl)
  | cons l2 ls2 ih =>
    intro l f rest hsafe
    obtain ⟨hne, hid, hname, hsch⟩ := hsafe l (List.mem_cons_self _ _)
    rw [show renderLeas (l :: l2 :: ls2) =
        renderLea l ++ (SEPARATOR ++ renderLeas (l2 :: ls2)) from rfl]
    simp only [String.data_append, List.append_assoc]
    rw [lit_sep, skipWs_renderLea,
      show leaFuelList (l :: l2 :: ls2) + f =
        (6 * l.openStatus.length + 11 + (leaFuelList (l2 :: ls2) + f)) + 1 from by
          simp [leaFuelList]; omega]
    refine Eq.trans (elems_cont_gen
      (6 * l.openStatus.length + 11 + (leaFuelList (l2 :: ls2) + f)) _ _ _
      (lea_value (leaFuelList (l2 :: ls2) + f) l _ hne hid hname hsch) (by rfl)) ?_
    rw [skipWs_nl,
      show 6 * l.openStatus.length + 11 + (leaFuelList (l2 :: ls2) + f) =
        leaFuelList (l2 :: ls2) + (6 * l.openStatus.length + 11 + f) from by omega]
    exact ih l2 (6 * l.openStatus.length + 11 + f) rest
      (fun x hx => hsafe x (List.mem_cons_of_mem _ hx))

theorem lit_pre1 (X : List Char) :
    ("\x7b\n\"conformsTo\": \"").data ++ X =
      '\x7b' :: '\n' :: '"' ::
        (("conformsTo").data ++ ('"' :: ':' :: ' ' :: '"' :: X)) := rfl

theorem lit_pre2 (X : List Char) :
    ("\",\n\"describedBy\": \"").data ++ X =
      '"' :: ',' :: '\n' :: '"' ::
        (("describedBy").data ++ ('"' :: ':' :: ' ' :: '"' :: X)) := rfl

theorem lit_pre3 (X : List Char) :
    ("\",\n\"reportingPeriodStartDate\": \"2021-05-10\",\n\"comment\": \"For each school, record All if all enrolled students were offered in-person instruction the full week\",\n\"comment\": \"record None if no enrolled student was offered in-person instruction any day of the reporting week,\",\n\"comment\": \"record Hybrid if the school was in session but the other two responses are not accurate,\",\n\"comment\": \"and record Not in session if the school was not in session for the reporting week.\",\n\"lea\": [\n").data ++ X =
      '"' :: ',' :: '\n' :: '"' :: (("reportingPeriodStartDate").data ++
        ('"' :: ':' :: ' ' :: '"' :: (("2021-05-10").data ++
          ('"' :: ',' :: '\n' :: '"' :: (("comment").data ++
            ('"' :: ':' :: ' ' :: '"' :: (("For each school, record All if all enrolled students were offered in-person instruction the full week").data ++
              ('"' :: ',' :: '\n' :: '"' :: (("comment").data ++
                ('"' :: ':' :: ' ' :: '"' :: (("record None if no enrolled student was offered in-person instruction any day of the reporting week,").data ++
                  ('"' :: ',' :: '\n' :: '"' :: (("comment").data ++
                    ('"' :: ':' :: ' ' :: '"' :: (("record Hybrid if the school was in session but the other two responses are not accurate,").data ++
                      ('"' :: ',' :: '\n' :: '"' :: (("comment").data ++
                        ('"' :: ':' :: ' ' :: '"' :: (("and record Not in session if the school was not in session for the reporting week.").data ++
                          ('"' :: ',' :: '\n' :: '"' :: (("lea").data ++
                            ('"' :: ':' :: ' ' :: '[' :: '\n' :: X)))))))))))))))))))))) := rfl

theorem renderFile_decomp (c d : String) (o : StateOut) :
    (renderFile c d o).data =
      '\x7b' :: '\n' :: '"' :: (("conformsTo").data ++
        ('"' :: ':' :: ' ' :: '"' :: (c.data ++
          ('"' :: ',' :: '\n' :: '"' :: (("describedBy").data ++
            ('"' :: ':' :: ' ' :: '"' :: (d.data ++
              ('"' :: ',' :: '\n' :: '"' :: (("reportingPeriodStartDate").data ++
                ('"' :: ':' :: ' ' :: '"' :: (("2021-05-10").data ++
                  ('"' :: ',' :: '\n' :: '"' :: (("comment").data ++
                    ('"' :: ':' :: ' ' :: '"' :: (("For each school, record All if all enrolled students were offered in-person instruction the full week").data ++
                      ('"' :: ',' :: '\n' :: '"' :: (("comment").data ++
                        ('"' :: ':' :: ' ' :: '"' :: (("record None if no enrolled student was offered in-person instruction any day of the reporting week,").data ++
                          ('"' :: ',' :: '\n' :: '"' :: (("comment").data ++
                            ('"' :: ':' :: ' ' :: '"' :: (("record Hybrid if the school was in session but the other two responses are not accurate,").data ++
                              ('"' :: ',' :: '\n' :: '"' :: (("comment").data ++
                                ('"' :: ':' :: ' ' :: '"' :: (("and record Not in session if the school was not in session for the reporting week.").data ++
                                  ('"' :: ',' :: '\n' :: '"' :: (("lea").data ++
                                    ('"' :: ':' :: ' ' :: '[' :: '\n' ::
                                      ('\n' :: ((renderLeas o.leas).data ++
                                        ('\n' :: ']' :: '\n' :: '\x7d' :: '\n' :: '\n' ::
                                          ([] : List Char)))))))))))))))))))))))))))))))))) := by
  simp only [renderFile, PREFIX_FORMAT, PRE1, PRE2, PRE3, SUFFIX,
    String.data_append, List.append_assoc]
  rw [lit_pre1, lit_pre2, lit_pre3]
  rfl

theorem skipWs_leas_head (l : LeaOut) (ls : List LeaOut) (X : List Char) :
    ∃ tail, skipWs ((renderLeas (l :: ls)).data ++ X) = '\x7b' :: tail := by
  cases ls with
  | nil =>
    rw [show renderLeas [l] = renderLea l from rfl, skipWs_renderLea, renderLea_decomp]
    exact ⟨_, rfl⟩
  | cons l2 ls2 =>
    rw [show renderLeas (l :: l2 :: ls2) =
        renderLea l ++ (SEPARATOR ++ renderLeas (l2 :: ls2)) from rfl]
    simp only [String.data_append, List.append_assoc]
    rw [skipWs_renderLea, renderLea_decomp]
    exact ⟨_, rfl⟩

theorem file_value (c d : String) (o : StateOut)
    (hc : safeStr c = true) (hd : safeStr d = true)
    (hne : o.leas ≠ [])
    (hsafe : ∀ x ∈ o.leas, x.openStatus ≠ [] ∧ safeStr x.leaID = true ∧
      safeStr x.leaName = true ∧ x.openStatus.all safeSchool = true) :
    skipValue (leaFuelList o.leas + 12) ((renderFile c d o).data) =
      some ('\n' :: '\n' :: []) := by
  obtain ⟨l, ls, hls⟩ : ∃ l ls, o.leas = l :: ls := by
    cases hl : o.leas with
    | nil => exact absurd hl hne
    | cons l ls => exact ⟨l, ls, rfl⟩
  obtain ⟨tl, htl⟩ := skipWs_leas_head l ls
    ('\n' :: ']' :: '\n' :: '\x7d' :: '\n' :: '\n' :: [])
  have helems : skipElems (leaFuelList o.leas + 2) ('\x7b' :: tl) =
      some ('\n' :: '\x7d' :: '\n' :: '\n' :: []) := by
    rw [← htl, hls]
    exact elems_leas ls l 2 ('\n' :: '\x7d' :: '\n' :: '\n' :: [])
      (by rw [← hls]; exact hsafe)
  rw [renderFile_decomp,
    show leaFuelList o.leas + 12 = (leaFuelList o.leas + 11) + 1 from by omega]
  refine Eq.trans (object_value_eq (leaFuelList o.leas + 11) _ _ (by rfl)) ?_
  rw [show leaFuelList o.leas + 11 = (leaFuelList o.leas + 10) + 1 from by omega]
  refine Eq.trans (member_cont_gen (leaFuelList o.leas + 10) _ _ _ _ (by decide)
    (by rw [skipWs_quote,
          show leaFuelList o.leas + 10 = (leaFuelList o.leas + 9) + 1 from by omega]
        exact string_value (leaFuelList o.leas + 9) c _ hc) (by rfl)) ?_
  rw [skipWs_nl, skipWs_quote,
    show leaFuelList o.leas + 10 = (leaFuelList o.leas + 9) + 1 from by omega]
  refine Eq.trans (member_cont_gen (leaFuelList o.leas + 9) _ _ _ _ (by decide)
    (by rw [skipWs_quote,
          show leaFuelList o.leas + 9 = (leaFuelList o.leas + 8) + 1 from by omega]
        exact string_value (leaFuelList o.leas + 8) d _ hd) (by rfl)) ?_
  rw [skipWs_nl, skipWs_quote,
    show leaFuelList o.leas + 9 = (leaFuelList o.leas + 8) + 1 from by omega]
  refine Eq.trans (member_cont_gen (leaFuelList o.leas + 8) _ _ _ _ (by decide)
    (by rw [skipWs_quote,
          show leaFuelList o.leas + 8 = (leaFuelList o.leas + 7) + 1 from by omega]
        exact string_value (leaFuelList o.leas + 7) ("2021-05-10") _ (by decide))
    (by rfl)) ?_
  rw [skipWs_nl, skipWs_quote,
    show leaFuelList o.leas + 8 = (leaFuelList o.leas + 7) + 1 from by omega]
  refine Eq.trans (member_cont_gen (leaFuelList o.leas + 7) _ _ _ _ (by decide)
    (by rw [skipWs_quote,
          show leaFuelList o.leas + 7 = (leaFuelList o.leas + 6) + 1 from by omega]
        exact string_value (leaFuelList o.leas + 6)
          ("For each school, record All if all enrolled students were offered in-person instruction the full week") _ (by decide))
    (by rfl)) ?_
  rw [skipWs_nl, skipWs_quote,
    show leaFuelList o.leas + 7 = (leaFuelList o.leas + 6) + 1 from by omega]
  refine Eq.trans (member_cont_gen (leaFuelList o.leas + 6) _ _ _ _ (by decide)
    (by rw [skipWs_quote,
          show leaFuelList o.leas + 6 = (leaFuelList o.leas + 5) + 1 from by omega]
        exact string_value (leaFuelList o.leas + 5)
          ("record None if no enrolled student was offered in-person instruction any day of the reporting week,") _ (by decide))
    (by rfl)) ?_
  rw [skipWs_nl, skipWs_quote,
    show leaFuelList o.leas + 6 = (leaFuelList o.leas + 5) + 1 from by omega]
  refine Eq.trans (member_cont_gen (leaFuelList o.leas + 5) _ _ _ _ (by decide)
    (by rw [skipWs_quote,
          show leaFuelList o.leas + 5 = (leaFuelList o.leas + 4) + 1 from by omega]
        exact string_value (leaFuelList o.leas + 4)
          ("record Hybrid if the school was in session but the other two responses are not accurate,") _ (by decide))
    (by rfl)) ?_
  rw [skipWs_nl, skipWs_quote,
    show leaFuelList o.leas + 5 = (leaFuelList o.leas + 4) + 1 from by omega]
  refine Eq.trans (member_cont_gen (leaFuelList o.leas + 4) _ _ _ _ (by decide)
    (by rw [skipWs_quote,
          show leaFuelList o.leas + 4 = (leaFuelList o.leas + 3) + 1 from by omega]
        exact string_value (leaFuelList o.leas + 3)
          ("and record Not in session if the school was not in session for the reporting week.") _ (by decide))
    (by rfl)) ?_
  rw [skipWs_nl, skipWs_quote,
    show leaFuelList o.leas + 4 = (leaFuelList o.leas + 3) + 1 from by omega]
  have hv : skipValue (leaFuelList o.leas + 3)
      (skipWs ('[' :: '\n' :: ('\n' :: ((renderLeas o.leas).data ++
        ('\n' :: ']' :: '\n' :: '\x7d' :: '\n' :: '\n' :: []))))) =
      some ('\n' :: '\x7d' :: '\n' :: '\n' :: []) := by
    rw [skipWs_lbracket,
      show leaFuelList o.leas + 3 = (leaFuelList o.leas + 2) + 1 from by omega]
    refine Eq.trans (array_value_eq (leaFuelList o.leas + 2) _ tl
      (by rw [skipWs_nl, skipWs_nl, hls]; exact htl)) ?_
    exact helems
  exact member_last_gen (leaFuelList o.leas + 3) _ _ _ _ (by decide) hv (by rfl)

theorem file_accepts (c d : String) (o : StateOut)
    (hc : safeStr c = true) (hd : safeStr d = true)
    (hne : o.leas ≠ [])
    (hsafe : ∀ x ∈ o.leas, x.openStatus ≠ [] ∧ safeStr x.leaID = true ∧
      safeStr x.leaName = true ∧ x.openStatus.all safeSchool = true) :
    jsonAccepts (leaFuelList o.leas + 12) (renderFile c d o) = true := by
  have hws : skipWs (renderFile c d o).data = (renderFile c d o).data := by
    rw [renderFile_decomp]
    exact skipWs_lbrace _
  have hmain := file_value c d o hc hd hne hsafe
  unfold jsonAccepts
  rw [hws]
  obtain ⟨t, ht⟩ : ∃ t, (renderFile c d o).data = '\x7b' :: t :=
    ⟨_, renderFile_decomp c d o⟩
  rw [ht] at hmain ⊢
  rw [hmain]
  rfl

theorem genLea_leaName {lid : String} {g : List Row} {l : LeaOut}
    (h : genLea lid g = some l) : ∃ r ∈ g, l.leaName = r.lea_name := by
  match g, h with
  | r :: g', h =>
    simp only [genLea, Option.some.injEq] at h
    exact ⟨r, List.mem_cons_self _ _, by rw [← h]⟩

theorem safeRow_fields {r : Row} (h : safeRow r = true) :
    safeStr r.st = true ∧ safeStr r.leaid = true ∧ safeStr r.lea_name = true ∧
      safeStr r.ncessch = true ∧ safeStr r.sch_name = true := by
  simpa [safeRow, Bool.and_eq_true, and_assoc] using h

theorem mem_groupOfLea_state {rows : List Row} {st lid : String} {r : Row}
    (h : r ∈ groupOfLea (groupOfState rows st) lid) : r ∈ rows :=
  (List.mem_filter.mp ((List.mem_filter.mp h).1)).1

/-- Every State output of a roster whose fields are all safe satisfies
the hypotheses of `file_accepts`. -/
theorem generated_safe {rows : List Row} {outs : List StateOut}
    (hrows : rows.all safeRow = true) (h : generate rows = some outs) :
    ∀ o ∈ outs, o.leas ≠ [] ∧
      ∀ x ∈ o.leas, x.openStatus ≠ [] ∧ safeStr x.leaID = true ∧
        safeStr x.leaName = true ∧ x.openStatus.all safeSchool = true := by
  rw [List.all_eq_true] at hrows
  intro o ho
  have hst := (generate_inv h).2 o ho
  obtain ⟨hleas, hnel⟩ := genState_inv hst
  constructor
  · intro hnil
    rw [hnil] at hleas
    exact hnel ((genLeas_map_leaID hleas).symm.trans (by simp))
  · intro x hx
    have hgen := genLeas_mem hleas x hx
    obtain ⟨hg, -, hos⟩ := genLea_inv hgen
    obtain ⟨rn, hrn, hn⟩ := genLea_leaName hgen
    have hrowsafe : ∀ r ∈ groupOfLea (groupOfState rows o.state) x.leaID,
        safeRow r = true := fun r hr => hrows r (mem_groupOfLea_state hr)
    refine ⟨by rw [hos]; simpa using hg, ?_, ?_, ?_⟩
    · have hmem : x.leaID ∈ o.leas.map (fun l => l.leaID) :=
        List.mem_map_of_mem (fun l => l.leaID) hx
      rw [genLeas_map_leaID hleas, mem_sortedUnique] at hmem
      obtain ⟨r, hr, hrl⟩ := List.mem_map.mp hmem
      rw [← hrl]
      exact (safeRow_fields (hrows r (List.mem_filter.mp hr).1)).2.1
    · rw [hn]
      exact (safeRow_fields (hrowsafe rn hrn)).2.2.1
    · rw [hos, List.all_eq_true]
      intro s hs
      obtain ⟨r, hr, hrs⟩ := List.mem_map.mp hs
      obtain ⟨-, -, -, hnc, hsn⟩ := safeRow_fields (hrowsafe r hr)
      rw [← hrs]
      simp only [safeSchool, Bool.and_eq_true]
      exact ⟨⟨by decide, hnc⟩, hsn⟩

theorem countQ_cons_ne {c : Char} (t : List Char) (h : ¬ (c = '"')) :
    countQ (c :: t) = countQ t := by
  simp [countQ, List.count_cons, h]

theorem countQ_cons_quote (t : List Char) : countQ ('"' :: t) = countQ t + 1 := by
  simp [countQ, List.count_cons]

theorem countQ_skipWs : ∀ s : List Char, countQ (skipWs s) = countQ s := by
  intro s
  induction s with
  | nil => rfl
  | cons c r ih =>
    by_cases hw : wsChar c = true
    · have hc : ¬ (c = '"') := by
        simp only [wsChar, Bool.or_eq_true, beq_iff_eq, or_assoc] at hw
        rcases hw with h | h | h | h <;> subst h <;> decide
      rw [show skipWs (c :: r) = skipWs r from by simp [skipWs, hw], ih,
        countQ_cons_ne r hc]
    · rw [show skipWs (c :: r) = c :: r from by simp [skipWs, hw]]

theorem countQ_skipStringBody :
    ∀ s r, skipStringBody s = some r → countQ s = countQ r + 1 := by
  intro s
  induction s with
  | nil => intro r h; exact absurd h (by simp [skipStringBody])
  | cons c t ih =>
    intro r h
    simp only [skipStringBody] at h
    by_cases hc : c = '"'
    · rw [if_pos hc] at h
      obtain rfl : t = r := by simpa using h
      rw [hc, countQ_cons_quote]
    · rw [if_neg hc] at h
      by_cases hs : isSafeChar c = true
      · rw [if_pos hs] at h
        rw [countQ_cons_ne t hc, ih r h]
      · rw [if_neg hs] at h
        exact absurd h (by simp)

theorem countQ_prefix_drop {pat s : List Char} (h : pat.isPrefixOf s = true)
    (hq : countQ pat = 0) : countQ s = countQ (s.drop pat.length) := by
  obtain ⟨t, ht⟩ := List.isPrefixOf_iff_prefix.mp h
  rw [← ht, List.drop_left]
  simp [countQ, List.count_append] at hq ⊢
  omega

theorem countQ_skipWs_nil : ∀ r : List Char, skipWs r = [] → countQ r = 0 := by
  intro r
  induction r with
  | nil => intro h; rfl
  | cons c t ih =>
    intro h
    by_cases hw : wsChar c = true
    · have hc : ¬ (c = ('"' : Char)) := by
        simp only [wsChar, Bool.or_eq_true, beq_iff_eq, or_assoc] at hw
        rcases hw with h2 | h2 | h2 | h2 <;> subst h2 <;> decide
      rw [show skipWs (c :: t) = skipWs t from by simp [skipWs, hw]] at h
      rw [countQ_cons_ne t hc]
      exact ih h
    · rw [show skipWs (c :: t) = c :: t from by simp [skipWs, hw]] at h
      exact absurd h (by simp)

theorem countQ_parity : ∀ f : Nat,
    (∀ s r, skipValue f s = some r → ∃ k, countQ s = 2 * k + countQ r) ∧
    (∀ s r, skipMembers f s = some r → ∃ k, countQ s = 2 * k + countQ r) ∧
    (∀ s r, skipElems f s = some r → ∃ k, countQ s = 2 * k + countQ r) := by
  intro f
  induction f with
  | zero =>
    refine ⟨?_, ?_, ?_⟩ <;> intro s r h
    · rw [show skipValue 0 s = none from rfl] at h; exact absurd h (by simp)
    · rw [show skipMembers 0 s = none from rfl] at h; exact absurd h (by simp)
    · rw [show skipElems 0 s = none from rfl] at h; exact absurd h (by simp)
  | succ f ih =>
    obtain ⟨ihv, ihm, ihe⟩ := ih
    refine ⟨?_, ?_, ?_⟩
    ·
      intro s r h
      simp only [skipValue] at h
      split at h
      · exact absurd h (by simp)
      · rename_i c t
        split at h
        · rename_i h1
          subst h1
          exact ⟨1, by rw [countQ_cons_quote, countQ_skipStringBody t r h]; omega⟩
        · rename_i h1
          split at h
          · rename_i h2
            subst h2
            split at h
            · rename_i r2 hws
              obtain rfl : r2 = r := by simpa using h
              refine ⟨0, ?_⟩
              rw [countQ_cons_ne t (by decide), ← countQ_skipWs t, hws,
                countQ_cons_ne r2 (by decide)]
              omega
            · rename_i hws
              obtain ⟨k, hk⟩ := ihm (skipWs t) r h
              refine ⟨k, ?_⟩
              rw [countQ_cons_ne t (by decide), ← countQ_skipWs t]
              exact hk
          · rename_i h2
            split at h
            · rename_i h4
              subst h4
              split at h
              · rename_i r2 hws
                obtain rfl : r2 = r := by simpa using h
                refine ⟨0, ?_⟩
                rw [countQ_cons_ne t (by decide), ← countQ_skipWs t, hws,
                  countQ_cons_ne r2 (by decide)]
                omega
              · rename_i hws
                obtain ⟨k, hk⟩ := ihe (skipWs t) r h
                refine ⟨k, ?_⟩
                rw [countQ_cons_ne t (by decide), ← countQ_skipWs t]
                exact hk
            · rename_i h4
              split at h
              · rename_i h5
                obtain rfl : (c :: t).drop 4 = r := by simpa using h
                refine ⟨0, ?_⟩
                have hp := countQ_prefix_drop h5 (by decide)
                simpa using hp
              · rename_i h5
                split at h
                · rename_i h6
                  obtain rfl : (c :: t).drop 5 = r := by simpa using h
                  refine ⟨0, ?_⟩
                  have hp := countQ_prefix_drop h6 (by decide)
                  simpa using hp
                · rename_i h6
                  split at h
                  · rename_i h7
                    obtain rfl : (c :: t).drop 4 = r := by simpa using h
                    refine ⟨0, ?_⟩
                    have hp := countQ_prefix_drop h7 (by decide)
                    simpa using hp
                  · exact absurd h (by simp)
    ·
      intro s r h
      simp only [skipMembers] at h
      split at h
      · rename_i rr
        split at h
        · exact absurd h (by simp)
        · rename_i r1 hsb
          split at h
          · rename_i r2 hcolon
            split at h
            · exact absurd h (by simp)
            · rename_i r3 hv
              split at h
              · rename_i r4 hcomma
                obtain ⟨k1, hk1⟩ := ihv (skipWs r2) r3 hv
                obtain ⟨k2, hk2⟩ := ihm (skipWs r4) r h
                refine ⟨1 + k1 + k2, ?_⟩
                rw [countQ_cons_quote]
                have e1 : countQ rr = countQ r1 + 1 := countQ_skipStringBody rr r1 hsb
                have e2 : countQ r1 = countQ r2 := by
                  rw [← countQ_skipWs r1, hcolon, countQ_cons_ne r2 (by decide)]
                have e4 : countQ r2 = countQ (skipWs r2) := (countQ_skipWs r2).symm
                have e5 : countQ r3 = countQ r4 := by
                  rw [← countQ_skipWs r3, hcomma, countQ_cons_ne r4 (by decide)]
                have e7 : countQ r4 = countQ (skipWs r4) := (countQ_skipWs r4).symm
                omega
              · rename_i r4 hbrace
                obtain rfl : r4 = r := by simpa using h
                obtain ⟨k1, hk1⟩ := ihv (skipWs r2) r3 hv
                refine ⟨k1 + 1, ?_⟩
                rw [countQ_cons_quote]
                have e1 : countQ rr = countQ r1 + 1 := countQ_skipStringBody rr r1 hsb
                have e2 : countQ r1 = countQ r2 := by
                  rw [← countQ_skipWs r1, hcolon, countQ_cons_ne r2 (by decide)]
                have e4 : countQ r2 = countQ (skipWs r2) := (countQ_skipWs r2).symm
                have e5 : countQ r3 = countQ r4 := by
                  rw [← countQ_skipWs r3, hbrace, countQ_cons_ne r4 (by decide)]
                omega
              · exact absurd h (by simp)
          · exact absurd h (by simp)
      · exact absurd h (by simp)
    ·
      intro s r h
      simp only [skipElems] at h
      split at h
      · exact absurd h (by simp)
      · rename_i r1 hv
        split at h
        · rename_i r2 hcomma
          obtain ⟨k1, hk1⟩ := ihv s r1 hv
          obtain ⟨k2, hk2⟩ := ihe (skipWs r2) r h
          refine ⟨k1 + k2, ?_⟩
          have e1 : countQ r1 = countQ r2 := by
            rw [← countQ_skipWs r1, hcomma, countQ_cons_ne r2 (by decide)]
          have e2 : countQ r2 = countQ (skipWs r2) := (countQ_skipWs r2).symm
          omega
        · rename_i r2 hbracket
          obtain rfl : r2 = r := by simpa using h
          obtain ⟨k1, hk1⟩ := ihv s r1 hv
          refine ⟨k1, ?_⟩
          have e1 : countQ r1 = countQ r2 := by
            rw [← countQ_skipWs r1, hbracket, countQ_cons_ne r2 (by decide)]
          omega
        · exact absurd h (by simp)

/-- C6 (amended): for every input roster whose five fields, and the two
URL flags, contain no double quote, no backslash and no control
character, every emitted file parses as a single JSON object (duplicate
keys permitted, as everywhere in this development's JSON fragment).  The
restriction is forced: the emitter interpolates fields verbatim with no
escaping, so a double quote in a field breaks the output, as the
counterexample shows. -/
theorem c6_valid_json_for_escape_free_rosters :
    ∀ (c d : String) (rows : List Row) (outs : List StateOut),
      safeStr c = true → safeStr d = true → rows.all safeRow = true →
      generate rows = some outs → ∀ o ∈ outs,
        ∃ f, jsonAccepts f (renderFile c d o) = true := by
  intro c d rows outs hc hd hrows h o ho
  obtain ⟨hne, hsafe⟩ := generated_safe hrows h o ho
  exact ⟨leaFuelList o.leas + 12, file_accepts c d o hc hd hne hsafe⟩

/-- Witness for C6 at the single-school roster with the default URLs. -/
theorem c6_valid_json_for_escape_free_rosters_witness :
    ∃ f, jsonAccepts f (renderFile CONFORMANCE_URL SCHEMA_URL OUT2) = true :=
  c6_valid_json_for_escape_free_rosters CONFORMANCE_URL SCHEMA_URL ROWS2 [OUT2]
    (by decide) (by decide) (by decide) (by decide) OUT2
    (List.mem_singleton.mpr rfl)

/-- Counterexample to C6 as stated: a roster whose school name contains a
double quote is interpolated verbatim, and the resulting file is rejected
by the JSON validator at every fuel, because a full parse consumes an
even number of quote characters while the file contains an odd number. -/
theorem c6_quote_in_name_breaks_json :
    run CONFORMANCE_URL SCHEMA_URL BADROWS =
      some [("VA", OUTPUT_FILENAME, renderFile CONFORMANCE_URL SCHEMA_URL BADOUT)] ∧
    ¬ ∃ f, jsonAccepts f (renderFile CONFORMANCE_URL SCHEMA_URL BADOUT) = true := by
  constructor
  · rw [run, show generate BADROWS = some [BADOUT] from by decide]
    rfl
  · rintro ⟨f, hacc⟩
    have hodd : countQ ((renderFile CONFORMANCE_URL SCHEMA_URL BADOUT).data) % 2 = 1 := by
      decide
    unfold jsonAccepts at hacc
    split at hacc
    · split at hacc
      · rename_i r hv
        have hk := (countQ_parity f).1 _ r hv
        obtain ⟨k, hk⟩ := hk
        have hr0 : countQ r = 0 :=
          countQ_skipWs_nil r (by simpa [List.isEmpty_iff] using hacc)
        rw [countQ_skipWs] at hk
        omega
      · exact absurd hacc (by simp)
    · exact absurd hacc (by simp)
